import Mathlib

/-!
Verification of the peakipy-web-app numerical core against its specification.

The TypeScript source (`src/lib/peakFitting.ts`, `src/lib/levenbergMarquardt.ts`)
is shallowly embedded here.  JavaScript `number` arithmetic is modelled over an
arbitrary linear ordered field `R` wherever the source uses only field
operations and comparisons; definitions are instantiated at `ℚ` (for concrete
evaluation) and at `ℝ` (for the transcendental peak profiles, where `Math.exp`
is modelled by `Real.exp`).  JavaScript arrays become `List R` with
`List.getD _ _ 0` for reads (out-of-range reads do not occur on the executed
paths) and `List.set` for writes.
-/

namespace Peakipy

/-- A data sample `{x, y}` (`DataPoint` in the source). -/
structure Pt (R : Type) where
  x : R
  y : R
  deriving DecidableEq, Repr

/-- Result record of `levenbergMarquardt` (`LMResult` in the source). -/
structure LMResult (R : Type) where
  params : List R
  residuals : List R
  chiSquared : R
  iterations : Nat
  converged : Bool
  deriving DecidableEq, Repr

/-- State of the `levenbergMarquardt` main loop before/after one iteration.
`done` records that the source loop has exited early (`break`): once set, later
iterations of the `for` loop do not execute. -/
structure LMState (R : Type) where
  params : List R
  residuals : List R
  chiSquared : R
  lambda : R
  iterations : Nat
  converged : Bool
  done : Bool
  deriving DecidableEq, Repr

variable {R : Type} [LinearOrderedField R]

/-- `calculateJacobian`: one-sided forward finite differences with absolute
step `epsilon = 1e-8`; entry `J[i][j] = (f(x, p + ε e_j)[i] - f(x, p)[i]) / ε`. -/
def calculateJacobian (x : List R) (params : List R)
    (modelFunc : List R → List R → List R) : List (List R) :=
  let y0 := modelFunc x params
  let epsilon : R := 1 / 10 ^ 8
  (List.range x.length).map (fun i =>
    (List.range params.length).map (fun j =>
      let paramsPlus := params.set j (params.getD j 0 + epsilon)
      let yPlus := modelFunc x paramsPlus
      (yPlus.getD i 0 - y0.getD i 0) / epsilon))

/-- `transpose` of a rectangular matrix, as in the source. -/
def transposeM (m : List (List R)) : List (List R) :=
  (List.range (m.headD []).length).map (fun j => m.map (fun row => row.getD j 0))

/-- `matrixMultiply`, as in the source (`colsA = A[0].length`). -/
def matrixMultiply (A B : List (List R)) : List (List R) :=
  A.map (fun rowA =>
    (List.range (B.headD []).length).map (fun j =>
      (List.range (A.headD []).length).foldl
        (fun sum k => sum + rowA.getD k 0 * (B.getD k []).getD j 0) 0))

/-- `J^T * residuals` as accumulated in the source's explicit double loop. -/
def lmJtR (J : List (List R)) (residuals : List R) (n p : Nat) : List R :=
  (List.range p).map (fun j =>
    (List.range n).foldl (fun s i => s + (J.getD i []).getD j 0 * residuals.getD i 0) 0)

/-- Damped normal matrix `H`: add `lambda * max(JtJ_ii, 1e-10)` on the diagonal. -/
def lmDamped (JtJ : List (List R)) (lambda : R) : List (List R) :=
  JtJ.mapIdx (fun i row => row.mapIdx (fun j v =>
    if i = j then v + lambda * max v (1 / 10 ^ 10) else v))

/-- One column of the forward elimination of `solveLinear` (pivot search, row
swap, singularity check, elimination below the pivot); `none` is sticky. -/
def solveLinearStep (n : Nat) (acc : Option (List (List R))) (i : Nat) :
    Option (List (List R)) :=
  match acc with
  | Option.none => Option.none
  | Option.some aug =>
    let maxRow := (List.range n).foldl
      (fun maxRow k =>
        if i + 1 ≤ k ∧ |(aug.getD k []).getD i 0| > |(aug.getD maxRow []).getD i 0|
        then k else maxRow) i
    let rowTop := aug.getD maxRow []
    let rowOther := aug.getD i []
    let swapped := (aug.set i rowTop).set maxRow rowOther
    if |(swapped.getD i []).getD i 0| < 1 / 10 ^ 12 then Option.none
    else
      Option.some ((List.range n).map (fun k =>
        if k ≤ i then swapped.getD k []
        else
          let factor := (swapped.getD k []).getD i 0 / (swapped.getD i []).getD i 0
          (swapped.getD k []).mapIdx
            (fun j v => if i ≤ j then v - factor * (swapped.getD i []).getD j 0 else v)))

/-- The augmented matrix `[A | b]` built by `solveLinear`. -/
def solveLinearAug (A : List (List R)) (b : List R) : List (List R) :=
  (List.range A.length).map (fun i => A.getD i [] ++ [b.getD i 0])

/-- `solveLinear`: Gaussian elimination with partial pivoting on the augmented
matrix (`n = A.length` inlined); `none` when a chosen pivot has magnitude
`< 1e-12` (singular). -/
def solveLinear (A : List (List R)) (b : List R) : Option (List R) :=
  match (List.range A.length).foldl (solveLinearStep A.length)
      (Option.some (solveLinearAug A b)) with
  | Option.none => Option.none
  | Option.some aug =>
    Option.some ((List.range A.length).foldr
      (fun i xs =>
        let rowI := aug.getD i []
        let s := (List.range' (i + 1) (A.length - (i + 1))).foldl
          (fun s j => s - rowI.getD j 0 * xs.getD j 0) (rowI.getD A.length 0)
        xs.set i (s / rowI.getD i 0))
      (List.replicate A.length 0))

/-- One iteration of the `levenbergMarquardt` `for` loop.  A singular damped
solve multiplies `lambda` by `lambdaUp` and `continue`s (parameters, residuals
and χ² untouched); an accepted step updates them and either converges (break)
or shrinks `lambda`; a rejected step grows `lambda` and aborts above `1e10`. -/
def lmStep (x y : List R) (modelFunc : List R → List R → List R)
    (tolerance lambdaUp lambdaDown : R) (s : LMState R) : LMState R :=
  if s.done then s
  else
    let n := x.length
    let p := s.params.length
    let s1 : LMState R := { s with iterations := s.iterations + 1 }
    let J := calculateJacobian x s.params modelFunc
    let JtJ := matrixMultiply (transposeM J) J
    let JtR := lmJtR J s.residuals n p
    let H := lmDamped JtJ s1.lambda
    match solveLinear H JtR with
    | none => { s1 with lambda := s1.lambda * lambdaUp }
    | some delta =>
      let newParams := s1.params.mapIdx (fun i pv => pv + delta.getD i 0)
      let newYPred := modelFunc x newParams
      let newResiduals := y.mapIdx (fun i yi => yi - newYPred.getD i 0)
      let newChiSquared := newResiduals.foldl (fun sum r => sum + r * r) 0
      if newChiSquared < s1.chiSquared then
        let relChange := (s1.chiSquared - newChiSquared) / (s1.chiSquared + 1 / 10 ^ 10)
        let s2 := { s1 with params := newParams, residuals := newResiduals,
                            chiSquared := newChiSquared }
        if relChange < tolerance then { s2 with converged := true, done := true }
        else { s2 with lambda := s2.lambda * lambdaDown }
      else
        let lam := s1.lambda * lambdaUp
        if lam > 10 ^ 10 then { s1 with lambda := lam, done := true }
        else { s1 with lambda := lam }

/-- `levenbergMarquardt` with the source defaults
`maxIterations=200, tolerance=1e-8, lambdaInit=1e-3, lambdaUp=10, lambdaDown=0.1`. -/
def levenbergMarquardt (x y : List R) (initialParams : List R)
    (modelFunc : List R → List R → List R)
    (maxIterations : Nat := 200) (tolerance : R := 1 / 10 ^ 8)
    (lambdaInit : R := 1 / 1000) (lambdaUp : R := 10) (lambdaDown : R := 1 / 10) :
    LMResult R :=
  let yPred := modelFunc x initialParams
  let residuals := y.mapIdx (fun i yi => yi - yPred.getD i 0)
  let chiSquared := residuals.foldl (fun sum r => sum + r * r) 0
  let s0 : LMState R := {
    params := initialParams, residuals := residuals, chiSquared := chiSquared,
    lambda := lambdaInit, iterations := 0, converged := false, done := false }
  let sN := (lmStep x y modelFunc tolerance lambdaUp lambdaDown)^[maxIterations] s0
  { params := sN.params, residuals := sN.residuals, chiSquared := sN.chiSquared,
    iterations := sN.iterations, converged := sN.converged }

/-! ## Baseline estimators -/

/-- JavaScript `v || dflt` for an optional numeric option: `undefined` and `0`
both fall back to the default. -/
def jsOrNum (v : Option R) (dflt : R) : R :=
  match v with
  | Option.some a => if a = 0 then dflt else a
  | Option.none => dflt

/-- JavaScript `v || dflt` for an optional integer option. -/
def jsOrNat (v : Option Nat) (dflt : Nat) : Nat :=
  match v with
  | Option.some a => if a = 0 then dflt else a
  | Option.none => dflt

/-- `linearBaseline`: use the supplied slope/intercept when both are present,
otherwise the line through the first and last sample. -/
def linearBaseline (data : List (Pt R)) (slope : Option R := Option.none)
    (intercept : Option R := Option.none) : List (Pt R) :=
  if data.length < 2 then data.map (fun d => ⟨d.x, 0⟩)
  else
    let mb : R × R :=
      match slope, intercept with
      | Option.some s, Option.some b => (s, b)
      | _, _ =>
        let x1 := (data.getD 0 ⟨0, 0⟩).x
        let y1 := (data.getD 0 ⟨0, 0⟩).y
        let x2 := (data.getD (data.length - 1) ⟨0, 0⟩).x
        let y2 := (data.getD (data.length - 1) ⟨0, 0⟩).y
        let m := (y2 - y1) / (x2 - x1)
        (m, y1 - m * x1)
    data.map (fun d => ⟨d.x, mb.1 * d.x + mb.2⟩)

/-- `solveLinearSystem`: Gaussian elimination with partial pivoting, no
singularity check (a zero pivot gives JS `NaN`/`Infinity`; here Lean's
division-by-zero convention — the theorems below never depend on that case). -/
def solveLinearSystem (matrix : List (List R)) (vector : List R) : List R :=
  let n := vector.length
  let st :=
    (List.range n).foldl
      (fun (st : List (List R) × List R) i =>
        let a := st.1
        let b := st.2
        let maxRow := (List.range n).foldl
          (fun maxRow k =>
            if i + 1 ≤ k ∧ |(a.getD k []).getD i 0| > |(a.getD maxRow []).getD i 0|
            then k else maxRow) i
        let rowTop := a.getD maxRow []
        let rowOther := a.getD i []
        let a2 := (a.set i rowTop).set maxRow rowOther
        let bTop := b.getD maxRow 0
        let bOther := b.getD i 0
        let b2 := (b.set i bTop).set maxRow bOther
        let a3 := (List.range n).map (fun k =>
          if k ≤ i then a2.getD k []
          else
            let factor := (a2.getD k []).getD i 0 / (a2.getD i []).getD i 0
            (a2.getD k []).mapIdx
              (fun j v => if i ≤ j then v - factor * (a2.getD i []).getD j 0 else v))
        let b3 := (List.range n).map (fun k =>
          if k ≤ i then b2.getD k 0
          else b2.getD k 0 - ((a2.getD k []).getD i 0 / (a2.getD i []).getD i 0) * b2.getD i 0)
        (a3, b3))
      (matrix, vector)
  (List.range n).foldr
    (fun i xs =>
      let s := (List.range' (i + 1) (n - (i + 1))).foldl
        (fun s j => s - (st.1.getD i []).getD j 0 * xs.getD j 0) (st.2.getD i 0)
      xs.set i (s / (st.1.getD i []).getD i 0))
    (List.replicate n 0)

/-- `polynomialBaseline`: robust iterative sigma-clipped polynomial fit.
`Math.sqrt` is not available over an abstract field, so it is passed in as
`sqrtFn` (instantiated with `Real.sqrt` at `R = ℝ`); the claims proved about
this function hold for every `sqrtFn`. -/
def polynomialBaseline (sqrtFn : R → R) (data : List (Pt R)) (degree : Nat := 2)
    (maxIter : Nat := 10) (sigma : R := 3 / 2) : List (Pt R) :=
  if data.length < degree + 1 then linearBaseline data
  else
    let n := data.length
    let xValues := data.map (fun d => d.x)
    let yValues := data.map (fun d => d.y)
    let xMin := xValues.min?.getD 0
    let xMax := xValues.max?.getD 0
    let xRange0 := xMax - xMin
    let xRange := if xRange0 = 0 then 1 else xRange0
    let xNorm := xValues.map (fun x => (x - xMin) / xRange)
    let final :=
      (List.range maxIter).foldl
        (fun (st : List Bool × List R × Bool) _ =>
          if st.2.2 then st
          else
            let mask := st.1
            let maskedX := (List.range n).filterMap
              (fun i => if mask.getD i false then Option.some (xNorm.getD i 0) else Option.none)
            let maskedY := (List.range n).filterMap
              (fun i => if mask.getD i false then Option.some (yValues.getD i 0) else Option.none)
            if maskedX.length < degree + 1 then (mask, st.2.1, true)
            else
              let matrix := (List.range (degree + 1)).map (fun i =>
                (List.range (degree + 1)).map (fun j =>
                  maskedX.foldl (fun sum x => sum + x ^ (i + j)) 0))
              let vector := (List.range (degree + 1)).map (fun i =>
                (maskedX.zip maskedY).foldl (fun sum q => sum + q.1 ^ i * q.2) 0)
              let coeffs := solveLinearSystem matrix vector
              let baseline := xNorm.map (fun x =>
                (List.range (degree + 1)).foldl (fun s i => s + coeffs.getD i 0 * x ^ i) 0)
              let residuals := yValues.mapIdx (fun i y => y - baseline.getD i 0)
              let maskedResiduals := (List.range n).filterMap
                (fun i => if mask.getD i false then Option.some (residuals.getD i 0) else Option.none)
              let std := sqrtFn
                ((maskedResiduals.foldl (fun s r => s + r * r) 0) / (maskedResiduals.length : R))
              let threshold := sigma * std
              let newMask := residuals.map (fun r => decide (r < threshold))
              if newMask = mask then (mask, coeffs, true)
              else (newMask, coeffs, false))
        (List.replicate n true, ([] : List R), false)
    let coeffs := final.2.1
    data.map (fun d =>
      let xn := (d.x - xMin) / xRange
      ⟨d.x, (List.range (degree + 1)).foldl (fun s i => s + coeffs.getD i 0 * xn ^ i) 0⟩)

/-- Clamp a pentadiagonal pivot away from zero:
`if (Math.abs(v) < 1e-14) v = 1e-14`. -/
def clamp14 (v : R) : R := if |v| < 1 / 10 ^ 14 then 1 / 10 ^ 14 else v

/-- Working state of the `solvePentadiagonal` LDLᵗ factorization. -/
structure PentaFact (R : Type) where
  diagD : List R
  subL1 : List R
  subL2 : List R

/-- First two rows of the `solvePentadiagonal` factorization. -/
def pentaInit (b c d e : List R) (n : Nat) : PentaFact R :=
  let d0 := clamp14 (c.getD 0 0)
  let diagA := (List.replicate n (0 : R)).set 0 d0
  let subL1a := (List.replicate n (0 : R)).set 0 (d.getD 0 0 / d0)
  let subL2a := (List.replicate n (0 : R)).set 0 (e.getD 0 0 / d0)
  let d1 := clamp14 (c.getD 1 0 - b.getD 1 0 * subL1a.getD 0 0)
  let diagB := diagA.set 1 d1
  let subL1b := subL1a.set 1 ((d.getD 1 0 - b.getD 1 0 * subL2a.getD 0 0) / d1)
  let subL2b := subL2a.set 1 (e.getD 1 0 / d1)
  ⟨diagB, subL1b, subL2b⟩

/-- Body of the `for (let i = 2; i < n; i++)` factorization loop, in source
statement order (note the trailing overwrites of `subL2[i-2]` and `subL1[i-1]`
storing the `L` entries for the substitution phase). -/
def pentaStep (a b c d e : List R) (n : Nat) (st : PentaFact R) (i : Nat) : PentaFact R :=
  let li2 := a.getD i 0 / st.diagD.getD (i - 2) 0
  let tmp := b.getD i 0 - li2 * st.diagD.getD (i - 2) 0 * st.subL1.getD (i - 2) 0
  let li1 := tmp / st.diagD.getD (i - 1) 0
  let di := clamp14 (c.getD i 0 - li2 * st.diagD.getD (i - 2) 0 * st.subL2.getD (i - 2) 0
      - li1 * st.diagD.getD (i - 1) 0 * st.subL1.getD (i - 1) 0)
  let diagB := st.diagD.set i di
  let subL1a := if i < n - 1 then
      st.subL1.set i ((d.getD i 0 - li1 * st.diagD.getD (i - 1) 0 * st.subL2.getD (i - 1) 0) / di)
    else st.subL1
  let subL2a := if i < n - 2 then st.subL2.set i (e.getD i 0 / di) else st.subL2
  let subL2b := subL2a.set (i - 2) li2
  let subL1b := subL1a.set (i - 1) li1
  ⟨diagB, subL1b, subL2b⟩

/-- The complete forward factorization pass of `solvePentadiagonal`. -/
def pentaFactor (a b c d e : List R) (n : Nat) : PentaFact R :=
  (List.range' 2 (n - 2)).foldl (pentaStep a b c d e n) (pentaInit b c d e n)

/-- `solvePentadiagonal`: LDLᵗ-style banded solve with all divisions guarded by
the `1e-14` pivot clamp. -/
def solvePentadiagonal (a b c d e rhs : List R) : List R :=
  let n := rhs.length
  if n < 3 then rhs
  else
    let st := pentaFactor a b c d e n
    let z0 := (List.replicate n (0 : R)).set 0 (rhs.getD 0 0)
    let z1 := z0.set 1 (rhs.getD 1 0 - st.subL1.getD 0 0 * z0.getD 0 0)
    let zf := (List.range' 2 (n - 2)).foldl
      (fun z i => z.set i (rhs.getD i 0 - st.subL2.getD (i - 2) 0 * z.getD (i - 2) 0
          - st.subL1.getD (i - 1) 0 * z.getD (i - 1) 0)) z1
    let zs := zf.mapIdx (fun i v => v / st.diagD.getD i 0)
    let x0 := (List.replicate n (0 : R)).set (n - 1) (zs.getD (n - 1) 0)
    let x1 := x0.set (n - 2)
      (zs.getD (n - 2) 0 - st.subL1.getD (n - 2) 0 * x0.getD (n - 1) 0)
    (List.range (n - 2)).reverse.foldl
      (fun x i => x.set i (zs.getD i 0 - st.subL1.getD i 0 * x.getD (i + 1) 0
          - st.subL2.getD i 0 * x.getD (i + 2) 0)) x1

/-- `whittakerSmooth`: build the pentadiagonal system for
`(W + λ·D2ᵗD2) z = W y` with the source's boundary stencils and solve it. -/
def whittakerSmooth (y w : List R) (lambda : R) : List R :=
  let n := y.length
  if n < 3 then y
  else
    let penta := (List.range n).map (fun i =>
      if i = 0 then ((0 : R), (0 : R), w.getD i 0 + lambda, -2 * lambda, lambda)
      else if i = 1 then (0, -2 * lambda, w.getD i 0 + 5 * lambda, -4 * lambda, lambda)
      else if i = n - 2 then (lambda, -4 * lambda, w.getD i 0 + 5 * lambda, -2 * lambda, 0)
      else if i = n - 1 then (lambda, -2 * lambda, w.getD i 0 + lambda, 0, 0)
      else (lambda, -4 * lambda, w.getD i 0 + 6 * lambda, -4 * lambda, lambda))
    let a := penta.map (fun q => q.1)
    let b := penta.map (fun q => q.2.1)
    let c := penta.map (fun q => q.2.2.1)
    let d := penta.map (fun q => q.2.2.2.1)
    let e := penta.map (fun q => q.2.2.2.2)
    let rhs := y.mapIdx (fun i yi => w.getD i 0 * yi)
    solvePentadiagonal a b c d e rhs

/-- `aslsBaseline`: asymmetric least squares via the Whittaker smoother,
re-deriving the asymmetric weights on every pass. -/
def aslsBaseline (data : List (Pt R)) (lambda : R := 100000) (p : R := 1 / 100)
    (iterations : Nat := 10) : List (Pt R) :=
  let n := data.length
  if n < 3 then data.map (fun d => ⟨d.x, 0⟩)
  else
    let y := data.map (fun d => d.y)
    let zw :=
      (List.range iterations).foldl
        (fun (st : List R × List R) _ =>
          let z := whittakerSmooth y st.2 lambda
          let w := (List.range n).map (fun i => if y.getD i 0 > z.getD i 0 then p else 1 - p)
          (z, w))
        (y, List.replicate n 1)
    data.mapIdx (fun i d => ⟨d.x, zw.1.getD i 0⟩)

/-- The values `y[j]` for `j` in the clipped window `[i-halfWindow, i+halfWindow]`
of `rollingBallBaseline`. -/
def windowMinVals (y : List R) (halfWindow : Int) (i : Nat) : List R :=
  let n := y.length
  let start := max 0 ((i : Int) - halfWindow)
  let stop := min (n : Int) ((i : Int) + halfWindow + 1)
  ((List.range n).filter (fun (j : Nat) => decide (start ≤ (j : Int) ∧ (j : Int) < stop))).map
    (fun j => y.getD j 0)

/-- The sliding-window minimum of `rollingBallBaseline` at index `i`.  The JS
loop starts from `Infinity` and keeps the strict-less minimum; on a nonempty
window (always the case for `halfWindow ≥ 0`) that is the window minimum.  An
empty window would give `Infinity` in JS; here the (unreached) default is 0. -/
def windowMin (y : List R) (halfWindow : Int) (i : Nat) : R :=
  (windowMinVals y halfWindow i).min?.getD 0

/-- One write pass of the `rollingBallBaseline` smoothing loop: interior
entries of `s` are overwritten with the 3-point average of the *original*
minimum envelope `env` (the source reads `baseline`, not `smoothed`). -/
def smoothPassFromEnv (env s : List R) : List R :=
  s.mapIdx (fun i v =>
    if 1 ≤ i ∧ i + 1 < s.length then
      (env.getD (i - 1) 0 + env.getD i 0 + env.getD (i + 1) 0) / 3
    else v)

/-- `rollingBallBaseline`: clipped sliding-window minimum with
`halfWindow = ceil(radius)` followed by the 3-pass smoothing loop (each pass
reading the unsmoothed envelope). -/
def rollingBallBaseline [FloorRing R] (data : List (Pt R)) (radius : R := 10) : List (Pt R) :=
  let n := data.length
  if n < 3 then data.map (fun d => ⟨d.x, 0⟩)
  else
    let y := data.map (fun d => d.y)
    let halfWindow : Int := ⌈radius⌉
    let baseline := (List.range n).map (fun i => windowMin y halfWindow i)
    let smoothed := (List.range 3).foldl (fun s _ => smoothPassFromEnv baseline s) baseline
    data.mapIdx (fun i d => ⟨d.x, smoothed.getD i 0⟩)

/-- `shirleyBaseline`: iterative Shirley background with the area-ratio update
and the `tolerance × (|yStart−yEnd| + 1e-10)` stopping rule. -/
def shirleyBaseline (data : List (Pt R)) (maxIterations : Nat := 50)
    (tolerance : R := 1 / 10 ^ 5) : List (Pt R) :=
  let n := data.length
  if n < 3 then data.map (fun d => ⟨d.x, 0⟩)
  else
    let y := data.map (fun (d : Pt R) => d.y)
    let yStart := y.getD 0 0
    let yEnd := y.getD (n - 1) 0
    let b0 := (List.range n).map (fun i =>
      let t := (i : R) / ((n : R) - 1)
      yStart * (1 - t) + yEnd * t)
    let final :=
      (List.range maxIterations).foldl
        (fun (st : List R × Bool) _ =>
          if st.2 then st
          else
            let baseline := st.1
            let totalArea := (List.range n).foldl
              (fun (s : R) i => s + max 0 (y.getD i 0 - baseline.getD i 0)) (0 : R)
            if totalArea = 0 then ((baseline, true) : List R × Bool)
            else
              let newBaseline := (List.range n).map (fun i =>
                let areaRight := (List.range' i (n - i)).foldl
                  (fun (s : R) j => s + max 0 (y.getD j 0 - baseline.getD j 0)) (0 : R)
                yEnd + (yStart - yEnd) * (areaRight / totalArea))
              let maxChange := (List.range n).foldl
                (fun (m : R) i => max m (abs (newBaseline.getD i 0 - baseline.getD i 0))) (0 : R)
              if maxChange < tolerance * (abs (yStart - yEnd) + 1 / 10 ^ 10) then
                ((newBaseline, true) : List R × Bool)
              else (newBaseline, false))
        (b0, false)
    data.mapIdx (fun i d => ⟨d.x, final.1.getD i 0⟩)

/-- `linearInterpolate`: constant extension outside the control-point span,
linear interpolation on the bracketing segment inside it. -/
def linearInterpolate (px py : List R) (x : R) : R :=
  let n := px.length
  if x ≤ px.getD 0 0 then py.getD 0 0
  else if px.getD (n - 1) 0 ≤ x then py.getD (n - 1) 0
  else
    match (List.range (n - 1)).find?
        (fun i => decide (px.getD i 0 ≤ x ∧ x ≤ px.getD (i + 1) 0)) with
    | Option.some i =>
      let t := (x - px.getD i 0) / (px.getD (i + 1) 0 - px.getD i 0)
      py.getD i 0 + t * (py.getD (i + 1) 0 - py.getD i 0)
    | Option.none => py.getD (n - 1) 0

/-- `cubicSplineInterpolate`: natural cubic spline through the control points,
with *linear* extension (boundary-segment slope) outside the span. -/
def cubicSplineInterpolate (px py : List R) (x : R) : R :=
  let n := px.length
  if n < 3 then linearInterpolate px py x
  else if x ≤ px.getD 0 0 then
    let slope := (py.getD 1 0 - py.getD 0 0) / (px.getD 1 0 - px.getD 0 0)
    py.getD 0 0 + slope * (x - px.getD 0 0)
  else if px.getD (n - 1) 0 ≤ x then
    let slope := (py.getD (n - 1) 0 - py.getD (n - 2) 0) / (px.getD (n - 1) 0 - px.getD (n - 2) 0)
    py.getD (n - 1) 0 + slope * (x - px.getD (n - 1) 0)
  else
    let h := (List.range (n - 1)).map (fun i => px.getD (i + 1) 0 - px.getD i 0)
    let alpha := (List.range n).map (fun i =>
      if 1 ≤ i ∧ i < n - 1 then
        (3 / h.getD i 0) * (py.getD (i + 1) 0 - py.getD i 0)
          - (3 / h.getD (i - 1) 0) * (py.getD i 0 - py.getD (i - 1) 0)
      else 0)
    let lmz :=
      (List.range n).foldl
        (fun (st : List R × List R × List R) i =>
          if 1 ≤ i ∧ i < n - 1 then
            let li := 2 * (px.getD (i + 1) 0 - px.getD (i - 1) 0)
                - h.getD (i - 1) 0 * st.2.1.getD (i - 1) 0
            (st.1.set i li, st.2.1.set i (h.getD i 0 / li),
              st.2.2.set i ((alpha.getD i 0 - h.getD (i - 1) 0 * st.2.2.getD (i - 1) 0) / li))
          else st)
        (List.replicate n 1, List.replicate n 0, List.replicate n 0)
    let mu := lmz.2.1
    let zz := lmz.2.2
    let cbd :=
      (List.range (n - 1)).reverse.foldl
        (fun (st : List R × List R × List R) j =>
          let cj := zz.getD j 0 - mu.getD j 0 * st.1.getD (j + 1) 0
          let c2 := st.1.set j cj
          let bj := (py.getD (j + 1) 0 - py.getD j 0) / h.getD j 0
              - h.getD j 0 * (c2.getD (j + 1) 0 + 2 * cj) / 3
          let dj := (c2.getD (j + 1) 0 - cj) / (3 * h.getD j 0)
          (c2, st.2.1.set j bj, st.2.2.set j dj))
        (List.replicate n 0, List.replicate (n - 1) 0, List.replicate (n - 1) 0)
    match (List.range (n - 1)).find?
        (fun i => decide (px.getD i 0 ≤ x ∧ x ≤ px.getD (i + 1) 0)) with
    | Option.some i =>
      let dx := x - px.getD i 0
      py.getD i 0 + cbd.2.1.getD i 0 * dx + cbd.1.getD i 0 * dx * dx
        + cbd.2.2.getD i 0 * dx * dx * dx
    | Option.none => py.getD (n - 1) 0

/-- Interpolation mode of the manual baseline. -/
inductive ManualInterp where
  | linear
  | cubic
  deriving DecidableEq, Repr

/-- `manualBaseline`: sort the control points by x (JS `Array.sort` is stable;
modelled by insertion sort) and interpolate each sample's x. -/
def manualBaseline (data : List (Pt R)) (points : List (Pt R))
    (interp : ManualInterp := ManualInterp.linear) : List (Pt R) :=
  if points.length < 2 then data.map (fun d => ⟨d.x, 0⟩)
  else
    let sortedPoints := points.insertionSort (fun a b => a.x ≤ b.x)
    let px := sortedPoints.map (fun p => p.x)
    let py := sortedPoints.map (fun p => p.y)
    data.map (fun d =>
      if interp = ManualInterp.cubic ∧ 3 ≤ sortedPoints.length then
        ⟨d.x, cubicSplineInterpolate px py d.x⟩
      else ⟨d.x, linearInterpolate px py d.x⟩)

/-- Baseline method selector (`BaselineOptions.method`). -/
inductive BaselineMethod where
  | none
  | linear
  | polynomial
  | asls
  | rolling_ball
  | shirley
  | manual
  deriving DecidableEq, Repr

/-- `BaselineOptions`.  `coeffs` models the untyped `(options as any).coeffs`
read by the polynomial branch. -/
structure BaselineOptions (R : Type) where
  method : BaselineMethod
  autoBaseline : Option Bool := Option.none
  optimizeSimultaneously : Option Bool := Option.none
  degree : Option Nat := Option.none
  lambda : Option R := Option.none
  p : Option R := Option.none
  radius : Option R := Option.none
  shirleyIterations : Option Nat := Option.none
  shirleyTolerance : Option R := Option.none
  slope : Option R := Option.none
  intercept : Option R := Option.none
  calcRangeMin : Option R := Option.none
  calcRangeMax : Option R := Option.none
  manualPoints : Option (List (Pt R)) := Option.none
  manualInterp : Option ManualInterp := Option.none
  coeffs : Option (List R) := Option.none

/-- Membership of an x value in the calc range
(`calcMin === undefined || x >= calcMin`, and symmetrically for the max). -/
def inCalcRange (options : BaselineOptions R) (x : R) : Bool :=
  (match options.calcRangeMin with
    | Option.some m => decide (m ≤ x)
    | Option.none => true)
  && (match options.calcRangeMax with
    | Option.some m => decide (x ≤ m)
    | Option.none => true)

/-- The `switch (options.method)` dispatch of `calculateBaseline`, applied to
the (possibly range-restricted) data. -/
def baselineForMethod (sqrtFn : R → R) [FloorRing R] (rangeData : List (Pt R))
    (options : BaselineOptions R) : List (Pt R) :=
  match options.method with
  | BaselineMethod.linear =>
    if options.autoBaseline = Option.some false ∧ options.slope.isSome ∧ options.intercept.isSome
    then linearBaseline rangeData options.slope options.intercept
    else linearBaseline rangeData
  | BaselineMethod.polynomial =>
    if options.autoBaseline = Option.some false ∧ options.coeffs.isSome then
      let cs := options.coeffs.getD []
      rangeData.map (fun d =>
        ⟨d.x, (List.range cs.length).foldl (fun s i => s + cs.getD i 0 * d.x ^ i) 0⟩)
    else polynomialBaseline sqrtFn rangeData (jsOrNat options.degree 2)
  | BaselineMethod.asls =>
    aslsBaseline rangeData (jsOrNum options.lambda 100000) (jsOrNum options.p (1 / 100))
  | BaselineMethod.rolling_ball =>
    rollingBallBaseline rangeData (jsOrNum options.radius 10)
  | BaselineMethod.shirley =>
    shirleyBaseline rangeData (jsOrNat options.shirleyIterations 50)
      (jsOrNum options.shirleyTolerance (1 / 10 ^ 5))
  | BaselineMethod.manual =>
    match options.manualPoints with
    | Option.some pts =>
      if 2 ≤ pts.length then
        manualBaseline rangeData pts (options.manualInterp.getD ManualInterp.linear)
      else rangeData.map (fun d => ⟨d.x, 0⟩)
    | Option.none => rangeData.map (fun d => ⟨d.x, 0⟩)
  | BaselineMethod.none => rangeData.map (fun d => ⟨d.x, 0⟩)

/-- The flat-extension walk of `calculateBaseline`: `i` is the running index,
`rIdxs`/`rys` the unconsumed suffix of the in-range indices and of the
restricted baseline's y values, `firstIdx` the first in-range index. -/
def flatExtendGo (leftY rightY : R) (firstIdx : Nat) :
    List (Pt R) → Nat → List Nat → List R → List (Pt R)
  | [], _, _, _ => []
  | d :: rest, i, j :: js, rys =>
    if i = j then
      ⟨d.x, rys.headD 0⟩ :: flatExtendGo leftY rightY firstIdx rest (i + 1) js (rys.tailD [])
    else if i < firstIdx then
      ⟨d.x, leftY⟩ :: flatExtendGo leftY rightY firstIdx rest (i + 1) (j :: js) rys
    else ⟨d.x, rightY⟩ :: flatExtendGo leftY rightY firstIdx rest (i + 1) (j :: js) rys
  | d :: rest, i, [], rys =>
    (if i < firstIdx then (⟨d.x, leftY⟩ : Pt R) else ⟨d.x, rightY⟩)
      :: flatExtendGo leftY rightY firstIdx rest (i + 1) [] rys

/-- Flat extension of the restricted baseline to the full domain. -/
def flatExtend (data : List (Pt R)) (rangeBaseline : List (Pt R))
    (rangeIndices : List Nat) : List (Pt R) :=
  let leftY := ((rangeBaseline.headD ⟨0, 0⟩).y : R)
  let rightY := ((rangeBaseline.getLastD ⟨0, 0⟩).y : R)
  flatExtendGo leftY rightY (rangeIndices.headD 0) data 0 rangeIndices
    (rangeBaseline.map (fun b => b.y))

/-- The indices of the data points inside the calc range. -/
def calcRangeIndices (data : List (Pt R)) (options : BaselineOptions R) : List Nat :=
  (List.range data.length).filter
    (fun i => inCalcRange options ((data.getD i ⟨0, 0⟩).x))

/-- `calculateBaseline`: dispatch on the method, optionally restricted to the
calc range (falling back to all data when fewer than 2 points are in range)
and flat-extended outside it. -/
def calculateBaseline (sqrtFn : R → R) [FloorRing R] (data : List (Pt R))
    (options : BaselineOptions R) : List (Pt R) :=
  if options.method = BaselineMethod.none then data.map (fun d => ⟨d.x, 0⟩)
  else
    let hasRange := options.calcRangeMin.isSome || options.calcRangeMax.isSome
    let rangeIndices :=
      if hasRange then
        (if (calcRangeIndices data options).length < 2 then List.range data.length
         else calcRangeIndices data options)
      else List.range data.length
    let rangeData :=
      if hasRange then rangeIndices.map (fun i => data.getD i ⟨0, 0⟩) else data
    let rangeBaseline := baselineForMethod sqrtFn rangeData options
    if hasRange = false ∨ rangeIndices.length = data.length then rangeBaseline
    else flatExtend data rangeBaseline rangeIndices

/-! ## Peak profiles and the fit orchestrator (over `ℝ`, `Math.exp ↦ Real.exp`) -/

/-- Peak profile selector. -/
inductive Profile where
  | gaussian
  | lorentzian
  | voigt
  deriving DecidableEq, Repr

/-- `PeakComponent`.  `weight` is non-optional in the TypeScript interface (the
source's `weight ?? 1.0` only guards an untyped `undefined`); `sigma`/`gamma`
are the optional overrides. -/
structure PeakComponent where
  id : Int
  profile : Profile
  center : ℝ
  amplitude : ℝ
  width : ℝ
  weight : ℝ
  sigma : Option ℝ := Option.none
  gamma : Option ℝ := Option.none

/-- `gaussian(x) = amp · exp(−(x−c)²/(2σ²))`. -/
noncomputable def gaussian (x center amplitude sigma : ℝ) : ℝ :=
  amplitude * Real.exp (-((x - center) ^ 2) / (2 * sigma ^ 2))

/-- `lorentzian(x) = amp · γ²/((x−c)² + γ²)` (pure field arithmetic, kept
polymorphic so concrete runs can be evaluated over `ℚ`). -/
def lorentzian (x center amplitude gamma : R) : R :=
  amplitude * gamma ^ 2 / ((x - center) ^ 2 + gamma ^ 2)

/-- `voigt`: pseudo-Voigt mixture of unit-height shapes, `η = γ/(σ+γ)`. -/
noncomputable def voigt (x center amplitude sigma gamma : ℝ) : ℝ :=
  let eta := gamma / (sigma + gamma)
  let g := gaussian x center 1 sigma
  let l := lorentzian x center 1 gamma
  amplitude * (eta * l + (1 - eta) * g)

/-- `component.sigma || component.width / 2.355` (JS `||`: an explicit 0
override also falls back to the FWHM conversion). -/
noncomputable def effSigma (c : PeakComponent) : ℝ :=
  match c.sigma with
  | Option.some s => if s = 0 then c.width / (2355 / 1000) else s
  | Option.none => c.width / (2355 / 1000)

/-- `component.gamma || component.width / 2`. -/
noncomputable def effGamma (c : PeakComponent) : ℝ :=
  match c.gamma with
  | Option.some g => if g = 0 then c.width / 2 else g
  | Option.none => c.width / 2

/-- `calculatePeak`: evaluate one component at `x` with the effective
amplitude `amplitude × weight`. -/
noncomputable def calculatePeak (x : ℝ) (component : PeakComponent) : ℝ :=
  let sigma := effSigma component
  let gamma := effGamma component
  let effectiveAmp := component.amplitude * component.weight
  match component.profile with
  | Profile.gaussian => gaussian x component.center effectiveAmp sigma
  | Profile.lorentzian => lorentzian x component.center effectiveAmp gamma
  | Profile.voigt => voigt x component.center effectiveAmp sigma gamma

/-- Optimized baseline parameter record inside `FitResult`. -/
structure BaselineParams where
  slope : Option ℝ := Option.none
  intercept : Option ℝ := Option.none
  coeffs : Option (List ℝ) := Option.none
  lambda : Option ℝ := Option.none
  p : Option ℝ := Option.none
  radius : Option ℝ := Option.none

/-- `FitResult`. -/
structure FitResult where
  fittedData : List (Pt ℝ)
  residuals : List (Pt ℝ)
  components : List (List (Pt ℝ))
  baseline : List (Pt ℝ)
  baselineCorrectedData : List (Pt ℝ)
  rSquared : ℝ
  adjustedRSquared : ℝ
  rmse : ℝ
  chiSquared : ℝ
  reducedChiSquared : ℝ
  aic : ℝ
  bic : ℝ
  parameters : List PeakComponent
  iterations : Nat
  converged : Bool
  optimizedBaseline : Option (List (Pt ℝ)) := Option.none
  baselineParams : Option BaselineParams := Option.none

/-- The `Map`-based baseline lookup `baselineMap.get(d.x) || 0`: later entries
with the same x overwrite earlier ones, a missing x (or a stored 0) gives 0. -/
noncomputable def lookupX (l : List (Pt ℝ)) (x : ℝ) : ℝ :=
  match l.reverse.find? (fun b => decide (b.x = x)) with
  | Option.some b => b.y
  | Option.none => 0

/-- Fallback component for the source's `components[c]?.profile || 'gaussian'`. -/
def defaultComponent : PeakComponent :=
  { id := 0, profile := Profile.gaussian, center := 0, amplitude := 0, width := 0, weight := 1 }

/-- The packed-parameter peak sum at one point: component `c` reads
`[center, amp, width]` from `params[3c ..]`, with `σ = width/2.355`,
`γ = width/2`. -/
noncomputable def peakSumAt (components : List PeakComponent) (params : List ℝ) (xi : ℝ) : ℝ :=
  (List.range components.length).foldl
    (fun s c =>
      let center := params.getD (c * 3) 0
      let amplitude := params.getD (c * 3 + 1) 0
      let width := params.getD (c * 3 + 2) 0
      let sigma := width / (2355 / 1000)
      let gamma := width / 2
      s + (match (components.getD c defaultComponent).profile with
        | Profile.gaussian => gaussian xi center amplitude sigma
        | Profile.lorentzian => lorentzian xi center amplitude gamma
        | Profile.voigt => voigt xi center amplitude sigma gamma))
    0

/-- The `modelFunc` closure built inside `fitPeaks`.  For the non-parametric
simultaneous branches the JS code reads past the end of a sliced parameter
array when recomputing the final baseline (`undefined` → `NaN`, partially
rescued by `|| 0`); this embedding reads the 0 default instead — a divergence
confined to optimized-baseline y values on those paths, which no claim below
depends on. -/
noncomputable def fitModel (components : List PeakComponent)
    (baselineOptions : Option (BaselineOptions ℝ)) (optimizeBaseline : Bool)
    (numBaselineParams : Nat) (yVals : List ℝ)
    (x : List ℝ) (params : List ℝ) : List ℝ :=
  let result := x.map (peakSumAt components params)
  let blParamsStart := components.length * 3
  if optimizeBaseline ∧ 0 < numBaselineParams then
    let o := baselineOptions.getD { method := BaselineMethod.none }
    match o.method with
    | BaselineMethod.linear =>
      let slope := params.getD blParamsStart 0
      let intercept := params.getD (blParamsStart + 1) 0
      result.mapIdx (fun i v => v + (slope * x.getD i 0 + intercept))
    | BaselineMethod.polynomial =>
      let degree := o.degree.getD 2
      result.mapIdx (fun i v => v +
        (List.range (degree + 1)).foldl
          (fun s dd => s + params.getD (blParamsStart + dd) 0 * x.getD i 0 ^ dd) 0)
    | BaselineMethod.asls =>
      let logLam := params.getD blParamsStart 0
      let p := max (1 / 10000) (min (1 / 2) (params.getD (blParamsStart + 1) 0))
      let lambda := (10 : ℝ) ^ (max (2 : ℝ) (min 10 logLam))
      let peakOnly := x.map (peakSumAt components params)
      let yMinusPeaks := yVals.mapIdx (fun i yv => yv - peakOnly.getD i 0)
      let aslsData := x.mapIdx (fun i xi => (⟨xi, yMinusPeaks.getD i 0⟩ : Pt ℝ))
      let aslsBl := aslsBaseline aslsData lambda p 5
      x.mapIdx (fun i _ => peakOnly.getD i 0 + (aslsBl.getD i ⟨0, 0⟩).y)
    | BaselineMethod.rolling_ball =>
      let radius : ℝ := ((max 1 (round (params.getD blParamsStart 0)) : ℤ) : ℝ)
      let peakOnly := x.map (peakSumAt components params)
      let yMinusPeaks := yVals.mapIdx (fun i yv => yv - peakOnly.getD i 0)
      let rbData := x.mapIdx (fun i xi => (⟨xi, yMinusPeaks.getD i 0⟩ : Pt ℝ))
      let rbBl := rollingBallBaseline rbData radius
      x.mapIdx (fun i _ => peakOnly.getD i 0 + (rbBl.getD i ⟨0, 0⟩).y)
    | BaselineMethod.shirley =>
      let startOffset := params.getD blParamsStart 0
      let endOffset := params.getD (blParamsStart + 1) 0
      let peakOnly := x.map (peakSumAt components params)
      let yMinusPeaks := yVals.mapIdx (fun i yv => yv - peakOnly.getD i 0)
      let adjusted := yMinusPeaks.mapIdx (fun i yv =>
        if i = 0 then yv + startOffset
        else if i = yMinusPeaks.length - 1 then yv + endOffset
        else yv)
      let shirleyData := x.mapIdx (fun i xi => (⟨xi, adjusted.getD i 0⟩ : Pt ℝ))
      let shirleyBl := shirleyBaseline shirleyData (o.shirleyIterations.getD 50)
        (o.shirleyTolerance.getD (1 / 10 ^ 5))
      x.mapIdx (fun i _ => peakOnly.getD i 0 + (shirleyBl.getD i ⟨0, 0⟩).y)
    | _ => result
  else result

/-- The `[center, amp×weight, width]` packing of the initial parameters. -/
def packPeakParams (components : List PeakComponent) : List ℝ :=
  components.foldl (fun acc c => acc ++ [c.center, c.amplitude * c.weight, c.width]) []

/-- The initial baseline parameters and their count for simultaneous
optimization (`Math.log10 ↦ Real.logb 10`). -/
noncomputable def packBaselineParams (bl : BaselineOptions ℝ) : List ℝ × Nat :=
  match bl.method with
  | BaselineMethod.linear => ([bl.slope.getD 0, bl.intercept.getD 0], 2)
  | BaselineMethod.polynomial =>
    let degree := bl.degree.getD 2
    (List.replicate (degree + 1) 0, degree + 1)
  | BaselineMethod.asls => ([Real.logb 10 (bl.lambda.getD 100000), bl.p.getD (1 / 100)], 2)
  | BaselineMethod.rolling_ball => ([bl.radius.getD 10], 1)
  | BaselineMethod.shirley => ([0, 0], 2)
  | _ => ([], 0)

/-- `baselineOptions?.optimizeSimultaneously && baselineOptions.method !== 'none'`. -/
def fitOptimizeBaselineFlag (o : Option (BaselineOptions ℝ)) : Bool :=
  match o with
  | Option.some o =>
    o.optimizeSimultaneously.getD false && decide (o.method ≠ BaselineMethod.none)
  | Option.none => false

/-- The appended baseline parameters and their count (empty when not
optimizing the baseline simultaneously). -/
noncomputable def fitBlAdd (o : Option (BaselineOptions ℝ)) : List ℝ × Nat :=
  if fitOptimizeBaselineFlag o then
    packBaselineParams (o.getD { method := BaselineMethod.none })
  else ([], 0)

/-- `numBaselineParams`. -/
noncomputable def fitNumBaselineParams (o : Option (BaselineOptions ℝ)) : Nat :=
  (fitBlAdd o).2

/-- The full initial packed parameter vector. -/
noncomputable def fitInitialParams (components : List PeakComponent)
    (o : Option (BaselineOptions ℝ)) : List ℝ :=
  packPeakParams components ++ (fitBlAdd o).1

/-- The model function handed to the optimizer. -/
noncomputable def fitModelFunc (components : List PeakComponent)
    (o : Option (BaselineOptions ℝ)) (yVals : List ℝ) :
    List ℝ → List ℝ → List ℝ :=
  fitModel components o (fitOptimizeBaselineFlag o) (fitNumBaselineParams o) yVals

/-- The target vector: raw y for simultaneous optimization, baseline-corrected
y otherwise. -/
noncomputable def fitTargetY (data baseline : List (Pt ℝ))
    (o : Option (BaselineOptions ℝ)) : List ℝ :=
  let yVals := data.map Pt.y
  if fitOptimizeBaselineFlag o then yVals
  else
    let initialBaselineYVals := (data.map Pt.x).map (fun x => lookupX baseline x)
    yVals.mapIdx (fun i yv => yv - initialBaselineYVals.getD i 0)

/-- The Levenberg–Marquardt call made by `fitPeaks`
(`maxIterations` forwarded, `tolerance = 1e-8`, rest defaults). -/
noncomputable def fitLMResult (data : List (Pt ℝ)) (components : List PeakComponent)
    (baseline : List (Pt ℝ)) (o : Option (BaselineOptions ℝ)) (maxIterations : Nat) :
    LMResult ℝ :=
  levenbergMarquardt (data.map Pt.x) (fitTargetY data baseline o)
    (fitInitialParams components o) (fitModelFunc components o (data.map Pt.y))
    maxIterations (1 / 10 ^ 8)

/-- Unpack the optimized peak parameters: amplitude clamped to `≥ 0`, width
clamped to `≥ 0.01`, weight reset to `1.0`. -/
noncomputable def fitOptimizedParams (data : List (Pt ℝ)) (components : List PeakComponent)
    (baseline : List (Pt ℝ)) (o : Option (BaselineOptions ℝ)) (maxIterations : Nat) :
    List PeakComponent :=
  let lmResult := fitLMResult data components baseline o maxIterations
  components.mapIdx (fun i comp =>
    { comp with
      center := lmResult.params.getD (i * 3) 0,
      amplitude := max 0 (lmResult.params.getD (i * 3 + 1) 0),
      width := max (1 / 100) (lmResult.params.getD (i * 3 + 2) 0),
      weight := 1 })

/-- The optimized baseline and its parameter record, when applicable. -/
noncomputable def fitOptPair (data : List (Pt ℝ)) (components : List PeakComponent)
    (baseline : List (Pt ℝ)) (baselineOptions : Option (BaselineOptions ℝ))
    (maxIterations : Nat) : Option (List (Pt ℝ)) × Option BaselineParams :=
  let xVals := data.map Pt.x
  let yVals := data.map Pt.y
  let bl := baselineOptions.getD { method := BaselineMethod.none }
  let numBaselineParams := fitNumBaselineParams baselineOptions
  let modelFunc := fitModelFunc components baselineOptions yVals
  let lmResult := fitLMResult data components baseline baselineOptions maxIterations
  let blParamsStart := components.length * 3
  if fitOptimizeBaselineFlag baselineOptions ∧ 0 < numBaselineParams then
    match bl.method with
        | BaselineMethod.linear =>
          let slope := lmResult.params.getD blParamsStart 0
          let intercept := lmResult.params.getD (blParamsStart + 1) 0
          (Option.some (xVals.map (fun x => ⟨x, slope * x + intercept⟩)),
            Option.some { slope := Option.some slope, intercept := Option.some intercept })
        | BaselineMethod.polynomial =>
          let degree := bl.degree.getD 2
          let coeffs := (List.range (degree + 1)).map
            (fun dd => lmResult.params.getD (blParamsStart + dd) 0)
          (Option.some (xVals.map (fun x =>
              ⟨x, (List.range (degree + 1)).foldl
                (fun s dd => s + coeffs.getD dd 0 * x ^ dd) 0⟩)),
            Option.some { coeffs := Option.some coeffs })
        | BaselineMethod.asls =>
          let logLam := lmResult.params.getD blParamsStart 0
          let p := lmResult.params.getD (blParamsStart + 1) 0
          let lambda := (10 : ℝ) ^ logLam
          let peakModel := modelFunc xVals (lmResult.params.take (components.length * 3))
          let yMinusPeaks := yVals.mapIdx (fun i yv => yv - peakModel.getD i 0)
          let aslsData := xVals.mapIdx (fun i x => (⟨x, yMinusPeaks.getD i 0⟩ : Pt ℝ))
          (Option.some (aslsBaseline aslsData lambda p 10),
            Option.some { lambda := Option.some lambda, p := Option.some p })
        | BaselineMethod.rolling_ball =>
          let radius : ℝ := ((max 1 (round (lmResult.params.getD blParamsStart 0)) : ℤ) : ℝ)
          let peakModel := modelFunc xVals (lmResult.params.take (components.length * 3))
          let yMinusPeaks := yVals.mapIdx (fun i yv => yv - peakModel.getD i 0)
          let rbData := xVals.mapIdx (fun i x => (⟨x, yMinusPeaks.getD i 0⟩ : Pt ℝ))
          (Option.some (rollingBallBaseline rbData radius),
            Option.some { radius := Option.some radius })
        | BaselineMethod.shirley =>
          let startOffset := lmResult.params.getD blParamsStart 0
          let endOffset := lmResult.params.getD (blParamsStart + 1) 0
          let peakModel := modelFunc xVals (lmResult.params.take (components.length * 3))
          let yMinusPeaks := yVals.mapIdx (fun i yv => yv - peakModel.getD i 0)
          let adjusted := yMinusPeaks.mapIdx (fun i yv =>
            if i = 0 then yv + startOffset
            else if i = yMinusPeaks.length - 1 then yv + endOffset
            else yv)
          let shirleyData := xVals.mapIdx (fun i x => (⟨x, adjusted.getD i 0⟩ : Pt ℝ))
          (Option.some (shirleyBaseline shirleyData (bl.shirleyIterations.getD 50)
              (bl.shirleyTolerance.getD (1 / 10 ^ 5))), Option.none)
        | _ => (Option.none, Option.none)
      else (Option.none, Option.none)

/-- The fitted-peak sum over the unpacked (clamped) components. -/
noncomputable def peaksSumOpt (params : List PeakComponent) (xv : ℝ) : ℝ :=
  params.foldl (fun s comp => s + calculatePeak xv comp) 0

/-- `fitPeaks`: pack parameters, run Levenberg–Marquardt, unpack with the
post-hoc clamps, optionally recompute an optimized baseline, and assemble the
curves and statistics (`normFactor = 1.0` in the source, so the normalized and
raw scales coincide). -/
noncomputable def fitPeaks (data : List (Pt ℝ)) (components : List PeakComponent)
    (baseline : List (Pt ℝ)) (baselineOptions : Option (BaselineOptions ℝ) := Option.none)
    (maxIterations : Nat := 200) : FitResult :=
  if data.length = 0 ∨ components.length = 0 then
    { fittedData := [], residuals := [], components := [], baseline := [],
      baselineCorrectedData := [], rSquared := 0, adjustedRSquared := 0, rmse := 0,
      chiSquared := 0, reducedChiSquared := 0, aic := 0, bic := 0,
      parameters := components, iterations := 0, converged := false }
  else
    let numBaselineParams := fitNumBaselineParams baselineOptions
    let lmResult := fitLMResult data components baseline baselineOptions maxIterations
    let optimizedParams := fitOptimizedParams data components baseline baselineOptions
      maxIterations
    let optPair := fitOptPair data components baseline baselineOptions maxIterations
    let finalBaseline := optPair.1.getD baseline
    let baselineCorrectedData := data.map (fun d => ⟨d.x, d.y - lookupX finalBaseline d.x⟩)
    let componentData := optimizedParams.map
      (fun comp => data.map (fun d => ⟨d.x, calculatePeak d.x comp⟩))
    let fittedData := data.map (fun d => ⟨d.x, peaksSumOpt optimizedParams d.x⟩)
    let residualsList := data.map
      (fun d => ⟨d.x, (d.y - lookupX finalBaseline d.x) - peaksSumOpt optimizedParams d.x⟩)
    let n := data.length
    let p := optimizedParams.length * 3 + numBaselineParams
    let meanY := (data.foldl (fun s d => s + d.y) 0) / (n : ℝ)
    let sumSquaredResiduals := data.foldl
      (fun s d => s + ((d.y - lookupX finalBaseline d.x) - peaksSumOpt optimizedParams d.x) ^ 2) 0
    let sumSquaredTotal := data.foldl (fun s d => s + (d.y - meanY) ^ 2) 0
    let rSquared := 1 - sumSquaredResiduals / (if sumSquaredTotal = 0 then 1 else sumSquaredTotal)
    let adjustedRSquared := 1 - (1 - rSquared) * ((n : ℝ) - 1) / ((n : ℝ) - (p : ℝ) - 1)
    let rmse := Real.sqrt (sumSquaredResiduals / (n : ℝ))
    let chiSquared := lmResult.chiSquared
    let dof := max 1 (n - p)
    let reducedChiSquared := chiSquared / (dof : ℝ)
    let logLikelihood := -(n : ℝ) / 2 * Real.log (sumSquaredResiduals / (n : ℝ))
    let aic := 2 * (p : ℝ) - 2 * logLikelihood
    let bic := (p : ℝ) * Real.log (n : ℝ) - 2 * logLikelihood
    { fittedData := fittedData, residuals := residualsList, components := componentData,
      baseline := finalBaseline, baselineCorrectedData := baselineCorrectedData,
      rSquared := max 0 rSquared, adjustedRSquared := max 0 adjustedRSquared,
      rmse := rmse, chiSquared := chiSquared, reducedChiSquared := reducedChiSquared,
      aic := aic, bic := bic, parameters := optimizedParams,
      iterations := lmResult.iterations, converged := lmResult.converged,
      optimizedBaseline := optPair.1, baselineParams := optPair.2 }

/-- The concrete single-lorentzian packed model used in the C9 counterexample
(the `fitModelFunc` of that fit, kept as a named definition). -/
noncomputable def cexModel : List ℝ → List ℝ → List ℝ :=
  fun xl ps => xl.map (fun xi =>
    lorentzian xi (ps.getD 0 0) (ps.getD 1 0) (ps.getD 2 0 / 2))
/-- SSres as the claim describes it: the sum of squared differences between
the result's baseline-corrected data and its fitted peak-sum curve. -/
noncomputable def ssResOf (r : FitResult) : ℝ :=
  ((r.baselineCorrectedData.zip r.fittedData).map (fun q => (q.1.y - q.2.y) ^ 2)).sum
/-- SStot as the claim describes it: the total sum of squares of y about its
mean. -/
noncomputable def ssTotOf (data : List (Pt ℝ)) : ℝ :=
  (data.map (fun d => (d.y - (data.map Pt.y).sum / (data.length : ℝ)) ^ 2)).sum
/-- The concrete dataset of the C3 witness. -/
def c3data : List (Pt ℚ) := [⟨0, 1⟩, ⟨1, 5⟩, ⟨2, 7⟩, ⟨3, 9⟩]
/-- The concrete options of the C3 witness: linear method with a calc range
keeping the two middle samples. -/
def c3opts : BaselineOptions ℚ :=
  { method := BaselineMethod.linear, calcRangeMin := Option.some 1,
    calcRangeMax := Option.some 2 }
/-- The control points sorted by x, as `manualBaseline` computes them. -/
def sortedPts (points : List (Pt R)) : List (Pt R) :=
  points.insertionSort (fun a b => a.x ≤ b.x)
/-- The x values of the sorted control points. -/
def ctrlX (points : List (Pt R)) : List R := (sortedPts points).map Pt.x
/-- The y values of the sorted control points. -/
def ctrlY (points : List (Pt R)) : List R := (sortedPts points).map Pt.y
/-- The concrete 1-sample dataset of the C6 witness (query x = −1). -/
def c6data : List (Pt ℚ) := [⟨-1, 0⟩]
/-- The concrete control points of the C6 witness. -/
def c6pts : List (Pt ℚ) := [⟨0, 0⟩, ⟨1, 1⟩, ⟨2, 4⟩]
/-- One *cascaded* 3-point moving-average pass, as the specification describes
the rolling-ball smoothing: each pass reads the output of the previous pass
(this is the spec-modelled definition, to be compared with the source's
`smoothPassFromEnv`, which re-reads the unsmoothed envelope). -/
def smoothPassSpec (s : List R) : List R :=
  s.mapIdx (fun i v =>
    if 1 ≤ i ∧ i + 1 < s.length then
      (s.getD (i - 1) 0 + s.getD i 0 + s.getD (i + 1) 0) / 3
    else v)
/-- The rolling-ball baseline as the specification describes it: the window
minimum envelope followed by three successive cascaded smoothing passes. -/
def rollingBallSpec [FloorRing R] (data : List (Pt R)) (radius : R) : List (Pt R) :=
  let n := data.length
  if n < 3 then data.map (fun d => ⟨d.x, 0⟩)
  else
    let y := data.map (fun d => d.y)
    let halfWindow : Int := ⌈radius⌉
    let baseline := (List.range n).map (fun i => windowMin y halfWindow i)
    let smoothed := smoothPassSpec (smoothPassSpec (smoothPassSpec baseline))
    data.mapIdx (fun i d => ⟨d.x, smoothed.getD i 0⟩)
/-- The minimum envelope of `rollingBallBaseline`. -/
def envOf [FloorRing R] (data : List (Pt R)) (r : R) : List R :=
  (List.range data.length).map
    (fun i => windowMin (data.map (fun d => d.y)) ⌈r⌉ i)

/-! ## Theorems -/

theorem solveLinearStep_none (n i : Nat) :
    solveLinearStep (R := R) n Option.none i = Option.none := rfl

theorem foldl_solveLinearStep_none (n : Nat) (l : List Nat) :
    l.foldl (solveLinearStep (R := R) n) Option.none = Option.none := by
  induction l with
  | nil => rfl
  | cons a l ih => rw [List.foldl_cons, solveLinearStep_none, ih]

/-- If the first elimination column already reports a singular pivot, the whole
solve is singular. -/
theorem solveLinear_eq_none_of_step0 (A : List (List R)) (b : List R)
    (hn : A.length ≠ 0)
    (h : solveLinearStep A.length (Option.some (solveLinearAug A b)) 0 = Option.none) :
    solveLinear A b = Option.none := by
  unfold solveLinear
  obtain ⟨m, hm⟩ : ∃ m, A.length = m + 1 := ⟨A.length - 1, by omega⟩
  rw [hm, List.range_succ_eq_map, List.foldl_cons]
  rw [hm] at h
  rw [h, foldl_solveLinearStep_none]

/-- C1: for a component with FWHM width > 0, weight in `[0,2]` and no
sigma/gamma overrides, `calculatePeak` at `x = center` returns
`amplitude × weight` for each of the three profiles (for voigt both unit
sub-shapes equal 1 at the center, so the weighted mixture also gives
`amplitude × weight`). -/
theorem c1_calculatePeak_at_center (comp : PeakComponent)
    (hs : comp.sigma = Option.none) (hg : comp.gamma = Option.none)
    (hw : 0 < comp.width) (hwt0 : 0 ≤ comp.weight) (hwt2 : comp.weight ≤ 2) :
    calculatePeak comp.center comp = comp.amplitude * comp.weight := by
  have hgam : (comp.width / 2 : ℝ) ≠ 0 := by positivity
  have hgam2 : (comp.width / 2 : ℝ) ^ 2 ≠ 0 := pow_ne_zero 2 hgam
  simp only [calculatePeak, effSigma, effGamma, hs, hg]
  cases hp : comp.profile with
  | gaussian =>
    simp [gaussian, sub_self, Real.exp_zero]
  | lorentzian =>
    simp only [lorentzian, sub_self]
    rw [mul_div_assoc]
    rw [zero_pow (by norm_num), zero_add, div_self hgam2, mul_one]
  | voigt =>
    simp only [voigt, gaussian, lorentzian, sub_self]
    rw [zero_pow (by norm_num)]
    rw [neg_zero, zero_div, Real.exp_zero, zero_add, one_mul, div_self hgam2]
    ring

/-- C1 witness: a concrete gaussian component evaluated at its center. -/
theorem c1_witness :
    let comp : PeakComponent :=
      { id := 1, profile := Profile.gaussian, center := 3, amplitude := 2,
        width := 1, weight := 1 / 2 }
    comp.sigma = Option.none ∧ 0 < comp.width ∧ 0 ≤ comp.weight ∧ comp.weight ≤ 2 ∧
      calculatePeak comp.center comp = comp.amplitude * comp.weight := by
  refine ⟨rfl, by norm_num, by norm_num, by norm_num, ?_⟩
  exact c1_calculatePeak_at_center _ rfl rfl (by norm_num) (by norm_num) (by norm_num)

/-- A singular damped solve makes the LM iteration leave everything except λ
(and the iteration counter) untouched. -/
theorem lmStep_singular_eq (x y : List R)
    (modelFunc : List R → List R → List R) (tolerance lambdaUp lambdaDown : R)
    (s : LMState R) (hdone : s.done = false)
    (hsing :
      solveLinear
        (lmDamped
          (matrixMultiply (transposeM (calculateJacobian x s.params modelFunc))
            (calculateJacobian x s.params modelFunc)) s.lambda)
        (lmJtR (calculateJacobian x s.params modelFunc) s.residuals x.length s.params.length)
        = Option.none) :
    lmStep x y modelFunc tolerance lambdaUp lambdaDown s =
      { s with iterations := s.iterations + 1, lambda := s.lambda * lambdaUp } := by
  unfold lmStep
  rw [hdone]
  simp only [Bool.false_eq_true, if_false]
  rw [hsing]

/-- C2: in a Levenberg–Marquardt iteration whose damped normal-equations solve
is singular, the step leaves parameters, residuals and χ² untouched, multiplies
λ by `lambdaUp`, and the Jacobian of the retry (a pure function of the
unchanged parameters) equals the Jacobian already computed for them. -/
theorem c2_lm_singular_retry (x y : List R)
    (modelFunc : List R → List R → List R) (tolerance lambdaUp lambdaDown : R)
    (s : LMState R) (hdone : s.done = false)
    (hsing :
      solveLinear
        (lmDamped
          (matrixMultiply (transposeM (calculateJacobian x s.params modelFunc))
            (calculateJacobian x s.params modelFunc)) s.lambda)
        (lmJtR (calculateJacobian x s.params modelFunc) s.residuals x.length s.params.length)
        = Option.none) :
    lmStep x y modelFunc tolerance lambdaUp lambdaDown s =
      { s with iterations := s.iterations + 1, lambda := s.lambda * lambdaUp } ∧
    calculateJacobian x (lmStep x y modelFunc tolerance lambdaUp lambdaDown s).params modelFunc
      = calculateJacobian x s.params modelFunc := by
  have hstep := lmStep_singular_eq x y modelFunc tolerance lambdaUp lambdaDown s hdone hsing
  exact ⟨hstep, by rw [hstep]⟩

/-- C2 witness: a concrete singular step over `ℚ` (constant model, so the
damped matrix is `[[1e-13]]` and the pivot check fails). -/
theorem c2_witness :
    let s : LMState ℚ := { params := [1], residuals := [0], chiSquared := 0,
                           lambda := 1 / 1000, iterations := 0, converged := false,
                           done := false }
    let f : List ℚ → List ℚ → List ℚ := fun _ _ => [0]
    lmStep [0] [0] f (1 / 10 ^ 8) 10 (1 / 10) s =
      { s with iterations := 1, lambda := (1 / 1000) * 10 } ∧
    calculateJacobian [0] (lmStep [0] [0] f (1 / 10 ^ 8) 10 (1 / 10) s).params f
      = calculateJacobian [0] s.params f := by
  refine c2_lm_singular_retry [0] [0] _ (1 / 10 ^ 8) 10 (1 / 10) _ rfl ?_
  have hJ : calculateJacobian [(0:ℚ)] [1] (fun _ _ => [0]) = [[0]] := by
    norm_num [calculateJacobian]
  norm_num [hJ, transposeM, matrixMultiply, lmJtR, lmDamped, solveLinear,
    solveLinearStep, solveLinearAug, List.range_succ, abs_of_nonneg]

/-- The pivot clamp keeps every stored divisor at magnitude at least `1e-14`. -/
theorem clamp14_bound (v : R) : 1 / 10 ^ 14 ≤ |clamp14 v| := by
  unfold clamp14
  by_cases h : |v| < 1 / 10 ^ 14
  · rw [if_pos h, abs_of_pos (by positivity : (0 : R) < 1 / 10 ^ 14)]
  · rw [if_neg h]
    exact le_of_not_lt h

theorem pentaStep_diagD_length (a b c d e : List R) (n : Nat) (st : PentaFact R) (i : Nat) :
    ((pentaStep a b c d e n st i).diagD).length = st.diagD.length := by
  unfold pentaStep
  simp

/-- Invariant carried through the factorization loop: all diagonal entries of
index below the write position are clamped. -/
theorem pentaSteps_bound (a b c d e : List R) (n : Nat) :
    ∀ (m s : Nat) (st : PentaFact R),
      st.diagD.length = n → s + m ≤ n →
      (∀ j, j < s → 1 / 10 ^ 14 ≤ |st.diagD.getD j 0|) →
      (((List.range' s m).foldl (pentaStep a b c d e n) st).diagD.length = n ∧
        ∀ j, j < s + m →
          1 / 10 ^ 14 ≤ |((List.range' s m).foldl (pentaStep a b c d e n) st).diagD.getD j 0|)
  | 0, s, st, hlen, _, hbound => by
    exact ⟨hlen, fun j hj => hbound j (by omega)⟩
  | m + 1, s, st, hlen, hsm, hbound => by
    rw [List.range'_succ, List.foldl_cons]
    have hnext := pentaSteps_bound a b c d e n m (s + 1) (pentaStep a b c d e n st s)
      (by rw [pentaStep_diagD_length]; exact hlen)
      (by omega)
      (by
        intro j hj
        unfold pentaStep
        simp only
        rcases Nat.lt_succ_iff_lt_or_eq.mp hj with hlt | heq
        · rw [List.getD_eq_getElem?_getD, List.getElem?_set_ne (by omega)]
          rw [← List.getD_eq_getElem?_getD]
          exact hbound j hlt
        · subst heq
          have hjn : j < st.diagD.length := by omega
          rw [List.getD_eq_getElem?_getD, List.getElem?_set_self hjn, Option.getD_some]
          exact clamp14_bound _)
    constructor
    · exact hnext.1
    · intro j hj
      exact hnext.2 j (by omega)

theorem pentaInit_diagD (b c d e : List R) (n : Nat) (h2 : 2 ≤ n) :
    (pentaInit b c d e n).diagD.length = n ∧
      ∀ j, j < 2 → 1 / 10 ^ 14 ≤ |(pentaInit b c d e n).diagD.getD j 0| := by
  unfold pentaInit
  simp only
  refine ⟨by simp, ?_⟩
  intro j hj
  have hl0 : ((List.replicate n (0 : R)).set 0 (clamp14 (c.getD 0 0))).length = n := by simp
  interval_cases j
  · rw [List.getD_eq_getElem?_getD, List.getElem?_set_ne (by omega),
      List.getElem?_set_self (by simp; omega), Option.getD_some]
    exact clamp14_bound _
  · rw [List.getD_eq_getElem?_getD, List.getElem?_set_self (by rw [hl0]; omega),
      Option.getD_some]
    exact clamp14_bound _

/-- C10: for inputs of length `n ≥ 3`, every diagonal divisor stored by the
pentadiagonal LDLᵗ factorization (`pentaFactor`, the forward pass of
`solvePentadiagonal`; each `diagD[i]` is written exactly once, through the
`1e-14` clamp, before any division by it) has magnitude at least `1e-14` — so
the solver, and `aslsBaseline` via `whittakerSmooth` on top of it, performs no
division by a vanishing pivot for any λ, p and iteration count. -/
theorem c10_pentadiagonal_divisors (a b c d e rhs : List R) (h3 : 3 ≤ rhs.length)
    (i : Nat) (hi : i < rhs.length) :
    1 / 10 ^ 14 ≤ |(pentaFactor a b c d e rhs.length).diagD.getD i 0| := by
  have hinit := pentaInit_diagD b c d e rhs.length (by omega)
  have h := pentaSteps_bound a b c d e rhs.length (rhs.length - 2) 2
    (pentaInit b c d e rhs.length) hinit.1 (by omega) hinit.2
  unfold pentaFactor
  exact h.2 i (by omega)

/-- C10 witness: a concrete length-3 system over `ℚ`. -/
theorem c10_witness :
    3 ≤ ([1, 1, 1] : List ℚ).length ∧ 0 < ([1, 1, 1] : List ℚ).length ∧
      1 / 10 ^ 14 ≤
        |(pentaFactor ([1, 1, 1] : List ℚ) [1, 1, 1] [1, 1, 1] [1, 1, 1] [1, 1, 1]
            ([1, 1, 1] : List ℚ).length).diagD.getD 0 0| := by
  refine ⟨by norm_num, by norm_num, ?_⟩
  exact c10_pentadiagonal_divisors [1, 1, 1] [1, 1, 1] [1, 1, 1] [1, 1, 1] [1, 1, 1]
    [1, 1, 1] (by norm_num) 0 (by norm_num)

/-- C5: an empty dataset or an empty component list yields the well-defined
empty `FitResult`: empty curve arrays, all statistics zero, the input
components echoed back, `iterations = 0`, `converged = false`. -/
theorem c5_fitPeaks_degenerate (data : List (Pt ℝ)) (components : List PeakComponent)
    (baseline : List (Pt ℝ)) (baselineOptions : Option (BaselineOptions ℝ))
    (maxIterations : Nat) (h : data.length = 0 ∨ components.length = 0) :
    (fitPeaks data components baseline baselineOptions maxIterations).fittedData = [] ∧
    (fitPeaks data components baseline baselineOptions maxIterations).residuals = [] ∧
    (fitPeaks data components baseline baselineOptions maxIterations).components = [] ∧
    (fitPeaks data components baseline baselineOptions maxIterations).baseline = [] ∧
    (fitPeaks data components baseline baselineOptions maxIterations).baselineCorrectedData
      = [] ∧
    (fitPeaks data components baseline baselineOptions maxIterations).rSquared = 0 ∧
    (fitPeaks data components baseline baselineOptions maxIterations).adjustedRSquared = 0 ∧
    (fitPeaks data components baseline baselineOptions maxIterations).rmse = 0 ∧
    (fitPeaks data components baseline baselineOptions maxIterations).chiSquared = 0 ∧
    (fitPeaks data components baseline baselineOptions maxIterations).reducedChiSquared = 0 ∧
    (fitPeaks data components baseline baselineOptions maxIterations).aic = 0 ∧
    (fitPeaks data components baseline baselineOptions maxIterations).bic = 0 ∧
    (fitPeaks data components baseline baselineOptions maxIterations).parameters
      = components ∧
    (fitPeaks data components baseline baselineOptions maxIterations).iterations = 0 ∧
    (fitPeaks data components baseline baselineOptions maxIterations).converged = false := by
  unfold fitPeaks
  rw [if_pos h]
  exact ⟨rfl, rfl, rfl, rfl, rfl, rfl, rfl, rfl, rfl, rfl, rfl, rfl, rfl, rfl, rfl⟩

/-- C5 witness: a concrete empty-data call. -/
theorem c5_witness :
    (([] : List (Pt ℝ)).length = 0 ∨ ([defaultComponent] : List PeakComponent).length = 0) ∧
    ((fitPeaks [] [defaultComponent] [] Option.none 200).fittedData = [] ∧
     (fitPeaks [] [defaultComponent] [] Option.none 200).residuals = [] ∧
     (fitPeaks [] [defaultComponent] [] Option.none 200).components = [] ∧
     (fitPeaks [] [defaultComponent] [] Option.none 200).baseline = [] ∧
     (fitPeaks [] [defaultComponent] [] Option.none 200).baselineCorrectedData = [] ∧
     (fitPeaks [] [defaultComponent] [] Option.none 200).rSquared = 0 ∧
     (fitPeaks [] [defaultComponent] [] Option.none 200).adjustedRSquared = 0 ∧
     (fitPeaks [] [defaultComponent] [] Option.none 200).rmse = 0 ∧
     (fitPeaks [] [defaultComponent] [] Option.none 200).chiSquared = 0 ∧
     (fitPeaks [] [defaultComponent] [] Option.none 200).reducedChiSquared = 0 ∧
     (fitPeaks [] [defaultComponent] [] Option.none 200).aic = 0 ∧
     (fitPeaks [] [defaultComponent] [] Option.none 200).bic = 0 ∧
     (fitPeaks [] [defaultComponent] [] Option.none 200).parameters = [defaultComponent] ∧
     (fitPeaks [] [defaultComponent] [] Option.none 200).iterations = 0 ∧
     (fitPeaks [] [defaultComponent] [] Option.none 200).converged = false) :=
  ⟨Or.inl rfl,
    c5_fitPeaks_degenerate [] [defaultComponent] [] Option.none 200 (Or.inl rfl)⟩

/-- C9 (amended): on non-degenerate inputs every component of the returned
`parameters` satisfies `width ≥ 0.01`, `amplitude ≥ 0` and `weight = 1.0`; the
clamps are applied once when unpacking the optimizer's final parameters (not
after each optimizer step — see the counterexample). -/
theorem c9_fitPeaks_params_clamped (data : List (Pt ℝ)) (components : List PeakComponent)
    (baseline : List (Pt ℝ)) (baselineOptions : Option (BaselineOptions ℝ))
    (maxIterations : Nat) (hd : data.length ≠ 0) (hc : components.length ≠ 0) :
    ∀ comp ∈ (fitPeaks data components baseline baselineOptions maxIterations).parameters,
      1 / 100 ≤ comp.width ∧ 0 ≤ comp.amplitude ∧ comp.weight = 1 := by
  intro comp hmem
  have hpar : (fitPeaks data components baseline baselineOptions maxIterations).parameters
      = fitOptimizedParams data components baseline baselineOptions maxIterations := by
    unfold fitPeaks
    rw [if_neg (by push_neg; exact ⟨hd, hc⟩)]
  rw [hpar] at hmem
  unfold fitOptimizedParams at hmem
  simp only at hmem
  rw [List.mem_iff_getElem] at hmem
  obtain ⟨j, hj, hcomp⟩ := hmem
  rw [List.getElem_mapIdx] at hcomp
  subst hcomp
  refine ⟨le_max_left _ _, le_max_left _ _, rfl⟩

/-- C9 witness for the amended clamping theorem: the degenerate 0-iteration fit
on one point still returns clamped parameters. -/
theorem c9_witness :
    ([(⟨0, 0⟩ : Pt ℝ)] : List (Pt ℝ)).length ≠ 0 ∧
    ([defaultComponent] : List PeakComponent).length ≠ 0 ∧
    ∀ comp ∈ (fitPeaks [(⟨0, 0⟩ : Pt ℝ)] [defaultComponent] [] Option.none 0).parameters,
      1 / 100 ≤ comp.width ∧ 0 ≤ comp.amplitude ∧ comp.weight = 1 := by
  refine ⟨by norm_num, by norm_num, ?_⟩
  exact c9_fitPeaks_params_clamped [⟨0, 0⟩] [defaultComponent] [] Option.none 0
    (by norm_num) (by norm_num)


/-- C9 counterexample: the optimizer applies no clamping after its steps.  In
this concrete fit (one lorentzian with amplitude 0 and width 0.005) the first
Levenberg–Marquardt iteration runs (singular damped solve, λ grows) and the
optimizer's parameter vector after that step still carries width
`0.005 < 0.01`; only the final unpacking in `fitPeaks` clamps it to `0.01`. -/
theorem c9_counterexample :
    (fitLMResult [⟨0, 1⟩, ⟨1, 0⟩, ⟨2, 0⟩]
        [{ id := 1, profile := Profile.lorentzian, center := 0, amplitude := 0,
           width := 1 / 200, weight := 1 }] [] Option.none 1).iterations = 1 ∧
    (fitLMResult [⟨0, 1⟩, ⟨1, 0⟩, ⟨2, 0⟩]
        [{ id := 1, profile := Profile.lorentzian, center := 0, amplitude := 0,
           width := 1 / 200, weight := 1 }] [] Option.none 1).params.getD 2 0 < 1 / 100 ∧
    ((fitPeaks [⟨0, 1⟩, ⟨1, 0⟩, ⟨2, 0⟩]
        [{ id := 1, profile := Profile.lorentzian, center := 0, amplitude := 0,
           width := 1 / 200, weight := 1 }] [] Option.none 1).parameters.getD 0
        defaultComponent).width = 1 / 100 := by
  have hm : fitModelFunc
      [{ id := 1, profile := Profile.lorentzian, center := 0, amplitude := 0,
         width := 1 / 200, weight := 1 }] Option.none
      (([⟨0, 1⟩, ⟨1, 0⟩, ⟨2, 0⟩] : List (Pt ℝ)).map Pt.y) = cexModel := by
    funext xl ps
    simp [fitModelFunc, fitModel, fitOptimizeBaselineFlag, peakSumAt, cexModel,
      List.range_succ]
  have hy : cexModel [0, 1, 2] [0, 0, 1 / 200] = [0, 0, 0] := by
    norm_num [cexModel, lorentzian]
  have hJ : calculateJacobian [(0 : ℝ), 1, 2] [0, 0, 1 / 200] cexModel =
      [[0, 1, 0], [0, 1 / 160001, 0], [0, 1 / 640001, 0]] := by
    norm_num [calculateJacobian, cexModel, lorentzian, List.range_succ]
  have hsing : solveLinear
      (lmDamped
        (matrixMultiply
          (transposeM (calculateJacobian [(0 : ℝ), 1, 2]
            (LMState.params ⟨[0, 0, 1 / 200], [1, 0, 0], 1, 1 / 1000, 0, false, false⟩)
            cexModel))
          (calculateJacobian [(0 : ℝ), 1, 2]
            (LMState.params ⟨[0, 0, 1 / 200], [1, 0, 0], 1, 1 / 1000, 0, false, false⟩)
            cexModel))
        (LMState.lambda ⟨[0, 0, 1 / 200], [1, 0, 0], 1, 1 / 1000, 0, false, false⟩))
      (lmJtR
        (calculateJacobian [(0 : ℝ), 1, 2]
          (LMState.params ⟨[0, 0, 1 / 200], [1, 0, 0], 1, 1 / 1000, 0, false, false⟩)
          cexModel)
        (LMState.residuals ⟨[0, 0, 1 / 200], [1, 0, 0], 1, 1 / 1000, 0, false, false⟩)
        (List.length [(0 : ℝ), 1, 2])
        (List.length (LMState.params
          ⟨[0, 0, 1 / 200], [1, 0, 0], 1, 1 / 1000, 0, false, false⟩))) = Option.none := by
    simp only
    rw [hJ]
    apply solveLinear_eq_none_of_step0
    · norm_num [lmDamped, matrixMultiply, transposeM, List.range_succ]
    · norm_num [solveLinearStep, solveLinearAug, lmDamped, matrixMultiply, transposeM,
        lmJtR, List.range_succ, abs_of_nonneg]
  have hstep := lmStep_singular_eq [(0 : ℝ), 1, 2] [1, 0, 0] cexModel
    (1 / 10 ^ 8) 10 (1 / 10)
    ⟨[0, 0, 1 / 200], [1, 0, 0], 1, 1 / 1000, 0, false, false⟩ rfl hsing
  norm_num at hstep
  have hlm : fitLMResult [⟨0, 1⟩, ⟨1, 0⟩, ⟨2, 0⟩]
      [{ id := 1, profile := Profile.lorentzian, center := 0, amplitude := 0,
         width := 1 / 200, weight := 1 }] [] Option.none 1 =
      { params := [0, 0, 1 / 200], residuals := [1, 0, 0], chiSquared := 1,
        iterations := 1, converged := false } := by
    rw [fitLMResult, hm]
    rw [show (([⟨0, 1⟩, ⟨1, 0⟩, ⟨2, 0⟩] : List (Pt ℝ)).map Pt.x) = [(0 : ℝ), 1, 2] by
      norm_num]
    rw [show fitTargetY [⟨0, 1⟩, ⟨1, 0⟩, ⟨2, 0⟩] [] (Option.none : Option (BaselineOptions ℝ))
        = [(1 : ℝ), 0, 0] by
      norm_num [fitTargetY, fitOptimizeBaselineFlag, lookupX]]
    rw [show fitInitialParams
        [{ id := 1, profile := Profile.lorentzian, center := 0, amplitude := 0,
           width := 1 / 200, weight := 1 }] (Option.none : Option (BaselineOptions ℝ))
        = [(0 : ℝ), 0, 1 / 200] by
      norm_num [fitInitialParams, packPeakParams, fitBlAdd, fitOptimizeBaselineFlag]]
    rw [levenbergMarquardt]
    rw [hy]
    norm_num [Function.iterate_one, hstep]
  refine ⟨by rw [hlm], by rw [hlm]; norm_num, ?_⟩
  have hpar : (fitPeaks [⟨0, 1⟩, ⟨1, 0⟩, ⟨2, 0⟩]
      [{ id := 1, profile := Profile.lorentzian, center := 0, amplitude := 0,
         width := 1 / 200, weight := 1 }] [] Option.none 1).parameters =
      fitOptimizedParams [⟨0, 1⟩, ⟨1, 0⟩, ⟨2, 0⟩]
        [{ id := 1, profile := Profile.lorentzian, center := 0, amplitude := 0,
           width := 1 / 200, weight := 1 }] [] Option.none 1 := by
    unfold fitPeaks
    rw [if_neg (by norm_num)]
  rw [hpar]
  unfold fitOptimizedParams
  rw [hlm]
  simp only [List.mapIdx_cons, List.mapIdx_nil]
  norm_num



theorem foldl_add_eq_sum {α : Type} (f : α → ℝ) :
    ∀ (l : List α) (a : ℝ), l.foldl (fun s d => s + f d) a = a + (l.map f).sum
  | [], a => by simp
  | d :: l, a => by
    rw [List.foldl_cons, foldl_add_eq_sum f l (a + f d), List.map_cons, List.sum_cons]
    ring

/-- C4 (amended): on non-degenerate inputs the returned `rSquared` equals
`max 0 (1 − SSres/SStot)`, with `SStot` replaced by 1 when it is zero
(the source computes `1 - SSres/(SStot || 1)` and returns `Math.max(0, ·)`). -/
theorem c4_fitPeaks_rSquared (data : List (Pt ℝ)) (components : List PeakComponent)
    (baseline : List (Pt ℝ)) (baselineOptions : Option (BaselineOptions ℝ))
    (maxIterations : Nat) (hd : data.length ≠ 0) (hc : components.length ≠ 0) :
    (fitPeaks data components baseline baselineOptions maxIterations).rSquared =
      max 0 (1 -
        ssResOf (fitPeaks data components baseline baselineOptions maxIterations) /
        (if ssTotOf data = 0 then 1 else ssTotOf data)) := by
  have hne : ¬(data.length = 0 ∨ components.length = 0) := by push_neg; exact ⟨hd, hc⟩
  have hbc : (fitPeaks data components baseline baselineOptions maxIterations).baselineCorrectedData
      = data.map (fun d =>
          (⟨d.x, d.y - lookupX
            ((fitOptPair data components baseline baselineOptions maxIterations).1.getD
              baseline) d.x⟩ : Pt ℝ)) := by
    unfold fitPeaks
    rw [if_neg hne]
  have hfd : (fitPeaks data components baseline baselineOptions maxIterations).fittedData
      = data.map (fun d =>
          (⟨d.x, peaksSumOpt
            (fitOptimizedParams data components baseline baselineOptions maxIterations)
            d.x⟩ : Pt ℝ)) := by
    unfold fitPeaks
    rw [if_neg hne]
  have hsum1 : ssResOf (fitPeaks data components baseline baselineOptions maxIterations)
      = data.foldl (fun s d => s +
          ((d.y - lookupX
              ((fitOptPair data components baseline baselineOptions maxIterations).1.getD
                baseline) d.x) -
            peaksSumOpt
              (fitOptimizedParams data components baseline baselineOptions maxIterations)
              d.x) ^ 2) 0 := by
    rw [ssResOf, hbc, hfd, List.zip_map', List.map_map, foldl_add_eq_sum, zero_add]
    rfl
  have hsum2 : ssTotOf data
      = data.foldl (fun s d =>
          s + (d.y - data.foldl (fun s d => s + d.y) 0 / (data.length : ℝ)) ^ 2) 0 := by
    rw [ssTotOf, foldl_add_eq_sum, zero_add, foldl_add_eq_sum, zero_add]
  rw [hsum1, hsum2]
  unfold fitPeaks
  rw [if_neg hne]

/-- C4 witness for the amended statement: a concrete one-point fit. -/
theorem c4_witness :
    ([(⟨0, 0⟩ : Pt ℝ)] : List (Pt ℝ)).length ≠ 0 ∧
    ([defaultComponent] : List PeakComponent).length ≠ 0 ∧
    (fitPeaks [(⟨0, 0⟩ : Pt ℝ)] [defaultComponent] [] Option.none 0).rSquared =
      max 0 (1 -
        ssResOf (fitPeaks [(⟨0, 0⟩ : Pt ℝ)] [defaultComponent] [] Option.none 0) /
        (if ssTotOf [(⟨0, 0⟩ : Pt ℝ)] = 0 then 1 else ssTotOf [(⟨0, 0⟩ : Pt ℝ)])) := by
  refine ⟨by norm_num, by norm_num, ?_⟩
  exact c4_fitPeaks_rSquared [⟨0, 0⟩] [defaultComponent] [] Option.none 0
    (by norm_num) (by norm_num)

/-- C4 counterexample: with `Math.max(0, ·)` applied, the returned `rSquared`
is 0 while `1 − SSres/SStot = −31801/2` for this badly-fitting 0-iteration
invocation, so the claim as stated (`rSquared = 1 − SSres/SStot`) is false. -/
theorem c4_counterexample :
    (fitPeaks [⟨0, 0⟩, ⟨1, 1⟩, ⟨2, 0⟩]
        [{ id := 1, profile := Profile.lorentzian, center := 1, amplitude := 100,
           width := 1, weight := 1 }] [] Option.none 0).rSquared ≠
      1 - ssResOf (fitPeaks [⟨0, 0⟩, ⟨1, 1⟩, ⟨2, 0⟩]
          [{ id := 1, profile := Profile.lorentzian, center := 1, amplitude := 100,
             width := 1, weight := 1 }] [] Option.none 0) /
        ssTotOf [⟨0, 0⟩, ⟨1, 1⟩, ⟨2, 0⟩] := by
  have hne : ¬(([⟨0, 0⟩, ⟨1, 1⟩, ⟨2, 0⟩] : List (Pt ℝ)).length = 0 ∨
      ([{ id := 1, profile := Profile.lorentzian, center := 1, amplitude := 100,
          width := 1, weight := 1 }] : List PeakComponent).length = 0) := by norm_num
  have hlm : (fitLMResult [⟨0, 0⟩, ⟨1, 1⟩, ⟨2, 0⟩]
      [{ id := 1, profile := Profile.lorentzian, center := 1, amplitude := 100,
         width := 1, weight := 1 }] [] Option.none 0).params = [1, 100, 1] := by
    unfold fitLMResult levenbergMarquardt
    simp only [Function.iterate_zero, id_eq]
    norm_num [fitInitialParams, packPeakParams, fitBlAdd, fitOptimizeBaselineFlag]
  have hop : fitOptimizedParams [⟨0, 0⟩, ⟨1, 1⟩, ⟨2, 0⟩]
      [{ id := 1, profile := Profile.lorentzian, center := 1, amplitude := 100,
         width := 1, weight := 1 }] [] Option.none 0 =
      [{ id := 1, profile := Profile.lorentzian, center := 1, amplitude := 100,
         width := 1, weight := 1 }] := by
    simp only [fitOptimizedParams]
    rw [hlm]
    simp only [List.mapIdx_cons, List.mapIdx_nil]
    norm_num
  have hpair : fitOptPair [⟨0, 0⟩, ⟨1, 1⟩, ⟨2, 0⟩]
      [{ id := 1, profile := Profile.lorentzian, center := 1, amplitude := 100,
         width := 1, weight := 1 }] [] Option.none 0 =
      (Option.none, Option.none) := by
    unfold fitOptPair
    norm_num [fitOptimizeBaselineFlag, fitNumBaselineParams, fitBlAdd]
  have hpk : ∀ xv : ℝ, peaksSumOpt
      [{ id := 1, profile := Profile.lorentzian, center := 1, amplitude := 100,
         width := 1, weight := 1 }] xv = lorentzian xv 1 100 (1 / 2) := by
    intro xv
    simp [peaksSumOpt, calculatePeak, effGamma, effSigma]
  have h1 : (fitPeaks [⟨0, 0⟩, ⟨1, 1⟩, ⟨2, 0⟩]
      [{ id := 1, profile := Profile.lorentzian, center := 1, amplitude := 100,
         width := 1, weight := 1 }] [] Option.none 0).rSquared = 0 := by
    unfold fitPeaks
    rw [if_neg hne, hpair, hop]
    norm_num [lookupX, hpk, lorentzian]
  have h2 : ssResOf (fitPeaks [⟨0, 0⟩, ⟨1, 1⟩, ⟨2, 0⟩]
      [{ id := 1, profile := Profile.lorentzian, center := 1, amplitude := 100,
         width := 1, weight := 1 }] [] Option.none 0) = 10601 := by
    rw [ssResOf]
    have hbc : (fitPeaks [⟨0, 0⟩, ⟨1, 1⟩, ⟨2, 0⟩]
        [{ id := 1, profile := Profile.lorentzian, center := 1, amplitude := 100,
           width := 1, weight := 1 }] [] Option.none 0).baselineCorrectedData =
        ([⟨0, 0⟩, ⟨1, 1⟩, ⟨2, 0⟩] : List (Pt ℝ)).map (fun d =>
          (⟨d.x, d.y - lookupX
            ((fitOptPair [⟨0, 0⟩, ⟨1, 1⟩, ⟨2, 0⟩]
              [{ id := 1, profile := Profile.lorentzian, center := 1, amplitude := 100,
                 width := 1, weight := 1 }] [] Option.none 0).1.getD []) d.x⟩ : Pt ℝ)) := by
      unfold fitPeaks
      rw [if_neg hne]
    have hfd : (fitPeaks [⟨0, 0⟩, ⟨1, 1⟩, ⟨2, 0⟩]
        [{ id := 1, profile := Profile.lorentzian, center := 1, amplitude := 100,
           width := 1, weight := 1 }] [] Option.none 0).fittedData =
        ([⟨0, 0⟩, ⟨1, 1⟩, ⟨2, 0⟩] : List (Pt ℝ)).map (fun d =>
          (⟨d.x, peaksSumOpt
            (fitOptimizedParams [⟨0, 0⟩, ⟨1, 1⟩, ⟨2, 0⟩]
              [{ id := 1, profile := Profile.lorentzian, center := 1, amplitude := 100,
                 width := 1, weight := 1 }] [] Option.none 0) d.x⟩ : Pt ℝ)) := by
      unfold fitPeaks
      rw [if_neg hne]
    rw [hbc, hfd, hpair, hop]
    norm_num [lookupX, hpk, lorentzian]
  have h3 : ssTotOf [⟨0, 0⟩, ⟨1, 1⟩, ⟨2, 0⟩] = 2 / 3 := by
    norm_num [ssTotOf]
  rw [h1, h2, h3]
  norm_num

/-- A `map` whose body keeps each sample's x leaves the x projection unchanged. -/
theorem map_x_map (l : List (Pt R)) (g : Pt R → Pt R) (hg : ∀ d, (g d).x = d.x) :
    (l.map g).map Pt.x = l.map Pt.x := by
  rw [List.map_map]
  exact List.map_congr_left (fun d _ => hg d)

/-- A `mapIdx` whose body keeps each sample's x leaves the x projection unchanged. -/
theorem map_x_mapIdx (l : List (Pt R)) (g : Nat → Pt R → Pt R)
    (hg : ∀ i d, (g i d).x = d.x) :
    (l.mapIdx g).map Pt.x = l.map Pt.x := by
  apply List.ext_getElem
  · simp
  · intro i h1 h2
    simp [List.getElem_mapIdx, hg]

theorem linearBaseline_map_x (data : List (Pt R)) (s i : Option R) :
    (linearBaseline data s i).map Pt.x = data.map Pt.x := by
  unfold linearBaseline
  split
  · exact map_x_map _ _ (fun d => rfl)
  · exact map_x_map _ _ (fun d => rfl)

theorem polynomialBaseline_map_x (sqrtFn : R → R) (data : List (Pt R)) (deg mi : Nat)
    (sg : R) :
    (polynomialBaseline sqrtFn data deg mi sg).map Pt.x = data.map Pt.x := by
  unfold polynomialBaseline
  split
  · exact linearBaseline_map_x _ _ _
  · exact map_x_map _ _ (fun d => rfl)

theorem aslsBaseline_map_x (data : List (Pt R)) (lam p : R) (its : Nat) :
    (aslsBaseline data lam p its).map Pt.x = data.map Pt.x := by
  simp only [aslsBaseline]
  split
  · exact map_x_map _ _ (fun d => rfl)
  · exact map_x_mapIdx _ _ (fun i d => rfl)

theorem rollingBallBaseline_map_x [FloorRing R] (data : List (Pt R)) (r : R) :
    (rollingBallBaseline data r).map Pt.x = data.map Pt.x := by
  simp only [rollingBallBaseline]
  split
  · exact map_x_map _ _ (fun d => rfl)
  · exact map_x_mapIdx _ _ (fun i d => rfl)

theorem shirleyBaseline_map_x (data : List (Pt R)) (mi : Nat) (tol : R) :
    (shirleyBaseline data mi tol).map Pt.x = data.map Pt.x := by
  simp only [shirleyBaseline]
  split
  · exact map_x_map _ _ (fun d => rfl)
  · exact map_x_mapIdx _ _ (fun i d => rfl)

theorem manualBaseline_map_x (data points : List (Pt R)) (interp : ManualInterp) :
    (manualBaseline data points interp).map Pt.x = data.map Pt.x := by
  simp only [manualBaseline]
  split
  · exact map_x_map _ _ (fun d => rfl)
  · exact map_x_map _ _ (fun d => by split <;> rfl)

/-- Every baseline method returns a curve whose x values are exactly those of
its (restricted) input, index for index. -/
theorem baselineForMethod_map_x (sqrtFn : R → R) [FloorRing R] (rangeData : List (Pt R))
    (options : BaselineOptions R) :
    (baselineForMethod sqrtFn rangeData options).map Pt.x = rangeData.map Pt.x := by
  unfold baselineForMethod
  split
  · split
    · exact linearBaseline_map_x _ _ _
    · exact linearBaseline_map_x _ _ _
  · split
    · exact map_x_map _ _ (fun d => rfl)
    · exact polynomialBaseline_map_x _ _ _ _ _
  · exact aslsBaseline_map_x _ _ _ _
  · exact rollingBallBaseline_map_x _ _
  · exact shirleyBaseline_map_x _ _ _
  · split
    · split
      · exact manualBaseline_map_x _ _ _
      · exact map_x_map _ _ (fun d => rfl)
    · exact map_x_map _ _ (fun d => rfl)
  · exact map_x_map _ _ (fun d => rfl)

/-- The flat-extension walk keeps the x values of the full data. -/
theorem flatExtendGo_map_x (L Rt : R) (fIdx : Nat) :
    ∀ (dl : List (Pt R)) (i : Nat) (rIdxs : List Nat) (rys : List R),
      (flatExtendGo L Rt fIdx dl i rIdxs rys).map Pt.x = dl.map Pt.x := by
  intro dl
  induction dl with
  | nil =>
    intro i rIdxs rys
    cases rIdxs <;> rfl
  | cons d rest ih =>
    intro i rIdxs rys
    cases rIdxs with
    | nil =>
      simp only [flatExtendGo, List.map_cons, ih]
      split <;> rfl
    | cons j js =>
      simp only [flatExtendGo]
      split
      · simp [ih]
      · split <;> simp [ih]

/-- Before the first in-range index the walk writes the left boundary value. -/
theorem flatExtendGo_left (L Rt : R) (fIdx : Nat) :
    ∀ (dl : List (Pt R)) (i : Nat) (rIdxs : List Nat) (rys : List R),
      (∀ j ∈ rIdxs, fIdx ≤ j) → ∀ k, k < dl.length → i + k < fIdx →
      ((flatExtendGo L Rt fIdx dl i rIdxs rys).getD k ⟨0, 0⟩).y = L := by
  intro dl
  induction dl with
  | nil =>
    intro i rIdxs rys _ k hk
    simp at hk
  | cons d rest ih =>
    intro i rIdxs rys hall k hk hklt
    cases rIdxs with
    | nil =>
      cases k with
      | zero =>
        simp only [flatExtendGo, List.getD_cons_zero]
        rw [if_pos (show i < fIdx by omega)]
      | succ m =>
        have hm : m < rest.length := by simp at hk; omega
        simp only [flatExtendGo, List.getD_cons_succ]
        exact ih (i + 1) [] rys (by simp) m hm (by omega)
    | cons j js =>
      have hij : i ≠ j := by
        have := hall j (List.mem_cons_self j js)
        omega
      cases k with
      | zero =>
        simp only [flatExtendGo]
        rw [if_neg hij, if_pos (show i < fIdx by omega)]
        rfl
      | succ m =>
        have hm : m < rest.length := by simp at hk; omega
        simp only [flatExtendGo]
        rw [if_neg hij, if_pos (show i < fIdx by omega), List.getD_cons_succ]
        exact ih (i + 1) (j :: js) rys hall m hm (by omega)

/-- Beyond every in-range index (and at or past the first one) the walk writes
the right boundary value. -/
theorem flatExtendGo_right (L Rt : R) (fIdx : Nat) :
    ∀ (dl : List (Pt R)) (i : Nat) (rIdxs : List Nat) (rys : List R),
      rIdxs.Pairwise (· < ·) → (∀ j ∈ rIdxs, i ≤ j) → ∀ k, k < dl.length →
      (∀ j ∈ rIdxs, j < i + k) → fIdx ≤ i + k →
      ((flatExtendGo L Rt fIdx dl i rIdxs rys).getD k ⟨0, 0⟩).y = Rt := by
  intro dl
  induction dl with
  | nil =>
    intro i rIdxs rys _ _ k hk
    simp at hk
  | cons d rest ih =>
    intro i rIdxs rys hpw hge k hk hgt hf
    cases rIdxs with
    | nil =>
      cases k with
      | zero =>
        simp only [flatExtendGo, List.getD_cons_zero]
        rw [if_neg (show ¬ i < fIdx by omega)]
      | succ m =>
        have hm : m < rest.length := by simp at hk; omega
        simp only [flatExtendGo, List.getD_cons_succ]
        exact ih (i + 1) [] rys (by simp) (by simp) m hm (by simp) (by omega)
    | cons j js =>
      by_cases hij : i = j
      · cases k with
        | zero =>
          exact absurd (hgt j (List.mem_cons_self j js)) (by omega)
        | succ m =>
          have hm : m < rest.length := by simp at hk; omega
          simp only [flatExtendGo]
          rw [if_pos hij, List.getD_cons_succ]
          refine ih (i + 1) js (rys.tailD []) (List.Pairwise.of_cons hpw) ?_ m hm ?_ (by omega)
          · intro q hq
            have := (List.pairwise_cons.mp hpw).1 q hq
            omega
          · intro q hq
            have := hgt q (List.mem_cons_of_mem j hq)
            omega
      · have hlt : i < j := by
          have := hge j (List.mem_cons_self j js)
          omega
        cases k with
        | zero =>
          exact absurd (hgt j (List.mem_cons_self j js)) (by omega)
        | succ m =>
          have hm : m < rest.length := by simp at hk; omega
          simp only [flatExtendGo]
          rw [if_neg hij]
          have harg : ∀ q ∈ j :: js, i + 1 ≤ q := by
            intro q hq
            rcases List.mem_cons.mp hq with h | h
            · omega
            · have := (List.pairwise_cons.mp hpw).1 q h
              omega
          have harg2 : ∀ q ∈ j :: js, q < i + 1 + m := by
            intro q hq
            have := hgt q hq
            omega
          split
          · rw [List.getD_cons_succ]
            exact ih (i + 1) (j :: js) rys hpw harg m hm harg2 (by omega)
          · rw [List.getD_cons_succ]
            exact ih (i + 1) (j :: js) rys hpw harg m hm harg2 (by omega)

/-- The head of a strictly sorted list bounds every member from below. -/
theorem sorted_headD_le {l : List Nat} (hpw : l.Pairwise (· < ·)) :
    ∀ j ∈ l, l.headD 0 ≤ j := by
  intro j hj
  cases l with
  | nil => simp at hj
  | cons a t =>
    rcases List.mem_cons.mp hj with h | h
    · simp [h]
    · have := (List.pairwise_cons.mp hpw).1 j h
      simp only [List.headD_cons]
      omega

/-- Every member of a strictly sorted list is bounded by its last element. -/
theorem sorted_le_getLastD :
    ∀ {l : List Nat}, l.Pairwise (· < ·) → ∀ j ∈ l, j ≤ l.getLastD 0 := by
  intro l
  induction l with
  | nil =>
    intro _ j hj
    simp at hj
  | cons a t ih =>
    intro hpw j hj
    cases t with
    | nil =>
      have hja : j = a := by simpa using hj
      simp [hja, List.getLastD_cons]
    | cons b u =>
      have h0 : ((a :: b :: u).getLastD 0) = ((b :: u).getLastD 0) := rfl
      rw [h0]
      rcases List.mem_cons.mp hj with h | h
      · have hab : a < b := (List.pairwise_cons.mp hpw).1 b (List.mem_cons_self b u)
        have hb := ih (List.Pairwise.of_cons hpw) b (List.mem_cons_self b u)
        omega
      · exact ih (List.Pairwise.of_cons hpw) j h

/-- The head element of a nonempty list is a member. -/
theorem headD_mem_of_ne_nil {α : Type} {l : List α} (h : l ≠ []) (d : α) :
    l.headD d ∈ l := by
  cases l with
  | nil => exact absurd rfl h
  | cons a t => simp

/-- The in-range indices are strictly increasing. -/
theorem calcRangeIndices_pairwise (data : List (Pt R)) (options : BaselineOptions R) :
    (calcRangeIndices data options).Pairwise (· < ·) :=
  (List.pairwise_lt_range _).filter _

/-- Every in-range index is a valid index of the data. -/
theorem calcRangeIndices_lt (data : List (Pt R)) (options : BaselineOptions R) :
    ∀ j ∈ calcRangeIndices data options, j < data.length := by
  intro j hj
  exact List.mem_range.mp (List.mem_of_mem_filter hj)

/-- Reading back a list by index over its whole range reproduces it (stated in
the `getElem?` normal form produced by `simp`). -/
theorem range_map_getD (l : List (Pt R)) :
    (List.range l.length).map (fun i => l[i]?.getD ⟨0, 0⟩) = l := by
  apply List.ext_getElem
  · simp
  · intro i h1 h2
    simp only [List.getElem_map, List.getElem_range]
    rw [List.getElem?_eq_getElem h2]
    rfl

/-- There are at most as many in-range indices as data points. -/
theorem calcRangeIndices_length_le (data : List (Pt R)) (options : BaselineOptions R) :
    (calcRangeIndices data options).length ≤ data.length := by
  unfold calcRangeIndices
  simpa using List.length_filter_le _ (List.range data.length)

/-- In the flat-extension regime (a supplied calc range keeping at least 2 but
not all samples), `calculateBaseline` is the flat extension of the restricted
baseline. -/
theorem calculateBaseline_flatExtend (sqrtFn : R → R) [FloorRing R]
    (data : List (Pt R)) (options : BaselineOptions R)
    (hm : ¬ options.method = BaselineMethod.none)
    (hr : (options.calcRangeMin.isSome || options.calcRangeMax.isSome) = true)
    (h2 : 2 ≤ (calcRangeIndices data options).length)
    (hlt : (calcRangeIndices data options).length < data.length) :
    calculateBaseline sqrtFn data options =
      flatExtend data
        (baselineForMethod sqrtFn
          ((calcRangeIndices data options).map (fun j => data.getD j ⟨0, 0⟩)) options)
        (calcRangeIndices data options) := by
  unfold calculateBaseline
  rw [if_neg hm]
  have hnot2 : ¬ (calcRangeIndices data options).length < 2 := by omega
  have hne : ¬ (calcRangeIndices data options).length = data.length := by omega
  simp [hr, hnot2, hne]

/-- `calculateBaseline` keeps the x values of its input, in every mode. -/
theorem calculateBaseline_map_x (sqrtFn : R → R) [FloorRing R]
    (data : List (Pt R)) (options : BaselineOptions R) :
    (calculateBaseline sqrtFn data options).map Pt.x = data.map Pt.x := by
  by_cases hm : options.method = BaselineMethod.none
  · unfold calculateBaseline
    rw [if_pos hm]
    exact map_x_map _ _ (fun d => rfl)
  · by_cases hr : (options.calcRangeMin.isSome || options.calcRangeMax.isSome) = true
    · by_cases h2 : (calcRangeIndices data options).length < 2
      · unfold calculateBaseline
        rw [if_neg hm]
        simp [hr, h2]
        rw [range_map_getD]
        exact baselineForMethod_map_x sqrtFn data options
      · by_cases heq : (calcRangeIndices data options).length = data.length
        · have hFr : calcRangeIndices data options = List.range data.length := by
            have hsub : (calcRangeIndices data options).Sublist (List.range data.length) :=
              List.filter_sublist _
            exact hsub.eq_of_length (heq.trans (List.length_range _).symm)
          unfold calculateBaseline
          rw [if_neg hm]
          simp [hr, h2]
          rw [if_pos heq, hFr, range_map_getD]
          exact baselineForMethod_map_x sqrtFn data options
        · have hle := calcRangeIndices_length_le data options
          rw [calculateBaseline_flatExtend sqrtFn data options hm hr (by omega) (by omega)]
          unfold flatExtend
          exact flatExtendGo_map_x _ _ _ data 0 _ _
    · unfold calculateBaseline
      rw [if_neg hm]
      simp only [Bool.not_eq_true] at hr
      simp [hr]
      exact baselineForMethod_map_x sqrtFn data options

/-- `calculateBaseline` preserves the length of its input. -/
theorem calculateBaseline_length (sqrtFn : R → R) [FloorRing R]
    (data : List (Pt R)) (options : BaselineOptions R) :
    (calculateBaseline sqrtFn data options).length = data.length := by
  have h := congrArg List.length (calculateBaseline_map_x sqrtFn data options)
  simpa using h

/-- C3: for every dataset and every baseline options value, `calculateBaseline`
returns a curve of the same length whose i-th point carries the i-th input x
value; and when a calc range is supplied (keeping at least 2 but not all
samples, with a real method), every index before the first in-range index gets
the restricted baseline's first y value and every index after the last
in-range index gets its last y value (flat extension with the boundary values
of the restricted computation). -/
theorem c3_calculateBaseline_aligned (sqrtFn : R → R) [FloorRing R]
    (data : List (Pt R)) (options : BaselineOptions R) :
    ((calculateBaseline sqrtFn data options).map Pt.x = data.map Pt.x ∧
      (calculateBaseline sqrtFn data options).length = data.length) ∧
    ((options.calcRangeMin.isSome ∨ options.calcRangeMax.isSome) →
      2 ≤ (calcRangeIndices data options).length →
      (calcRangeIndices data options).length < data.length →
      ¬ options.method = BaselineMethod.none →
      (∀ i, i < (calcRangeIndices data options).headD 0 →
        ((calculateBaseline sqrtFn data options).getD i ⟨0, 0⟩).y =
          ((baselineForMethod sqrtFn
              ((calcRangeIndices data options).map (fun j => data.getD j ⟨0, 0⟩))
              options).headD ⟨0, 0⟩).y) ∧
      (∀ i, (calcRangeIndices data options).getLastD 0 < i → i < data.length →
        ((calculateBaseline sqrtFn data options).getD i ⟨0, 0⟩).y =
          ((baselineForMethod sqrtFn
              ((calcRangeIndices data options).map (fun j => data.getD j ⟨0, 0⟩))
              options).getLastD ⟨0, 0⟩).y)) := by
  refine ⟨⟨calculateBaseline_map_x sqrtFn data options,
    calculateBaseline_length sqrtFn data options⟩, ?_⟩
  intro hsome h2 hlt hm
  have hr : (options.calcRangeMin.isSome || options.calcRangeMax.isSome) = true := by
    rcases hsome with h | h <;> simp [h]
  have hflat := calculateBaseline_flatExtend sqrtFn data options hm hr h2 hlt
  have hpw : (calcRangeIndices data options).Pairwise (· < ·) :=
    calcRangeIndices_pairwise data options
  have hmem : ∀ j ∈ calcRangeIndices data options, j < data.length :=
    calcRangeIndices_lt data options
  have hnil : calcRangeIndices data options ≠ [] :=
    List.ne_nil_of_length_pos (by omega)
  have hhead : (calcRangeIndices data options).headD 0 ∈ calcRangeIndices data options :=
    headD_mem_of_ne_nil hnil 0
  have hheadlt : (calcRangeIndices data options).headD 0 < data.length := hmem _ hhead
  have hheadlast : (calcRangeIndices data options).headD 0 ≤
      (calcRangeIndices data options).getLastD 0 :=
    sorted_le_getLastD hpw _ hhead
  constructor
  · intro i hi
    rw [hflat]
    unfold flatExtend
    exact flatExtendGo_left _ _ _ data 0 _ _ (sorted_headD_le hpw) i (by omega) (by omega)
  · intro i hgt hi
    rw [hflat]
    unfold flatExtend
    refine flatExtendGo_right _ _ _ data 0 _ _ hpw (fun j _ => Nat.zero_le j) i hi ?_ (by omega)
    intro j hj
    have := sorted_le_getLastD hpw j hj
    omega



/-- C3 witness: a concrete 4-point dataset with a calc range keeping indices
1 and 2; the hypotheses hold and the flat extension carries the restricted
baseline's boundary values to indices 0 and 3. -/
theorem c3_witness :
    ((c3opts.calcRangeMin.isSome ∨ c3opts.calcRangeMax.isSome) ∧
      2 ≤ (calcRangeIndices c3data c3opts).length ∧
      (calcRangeIndices c3data c3opts).length < c3data.length ∧
      ¬ c3opts.method = BaselineMethod.none ∧
      0 < (calcRangeIndices c3data c3opts).headD 0 ∧
      (calcRangeIndices c3data c3opts).getLastD 0 < 3 ∧ 3 < c3data.length) ∧
    ((calculateBaseline (fun q => q) c3data c3opts).getD 0 ⟨0, 0⟩).y =
      ((baselineForMethod (fun q => q)
          ((calcRangeIndices c3data c3opts).map (fun j => c3data.getD j ⟨0, 0⟩))
          c3opts).headD ⟨0, 0⟩).y ∧
    ((calculateBaseline (fun q => q) c3data c3opts).getD 3 ⟨0, 0⟩).y =
      ((baselineForMethod (fun q => q)
          ((calcRangeIndices c3data c3opts).map (fun j => c3data.getD j ⟨0, 0⟩))
          c3opts).getLastD ⟨0, 0⟩).y := by
  have hF : calcRangeIndices c3data c3opts = [1, 2] := by decide
  have h1 : c3opts.calcRangeMin.isSome ∨ c3opts.calcRangeMax.isSome := Or.inl rfl
  have h2 : 2 ≤ (calcRangeIndices c3data c3opts).length := by rw [hF]; decide
  have h3 : (calcRangeIndices c3data c3opts).length < c3data.length := by rw [hF]; decide
  have h4 : ¬ c3opts.method = BaselineMethod.none := by decide
  have h5 : 0 < (calcRangeIndices c3data c3opts).headD 0 := by rw [hF]; decide
  have h6 : (calcRangeIndices c3data c3opts).getLastD 0 < 3 := by rw [hF]; decide
  have h7 : (3 : Nat) < c3data.length := by decide
  have h := (c3_calculateBaseline_aligned (fun q => q) c3data c3opts).2 h1 h2 h3 h4
  exact ⟨⟨h1, h2, h3, h4, h5, h6, h7⟩, h.1 0 h5, h.2 3 h6 h7⟩




/-- `getD` through a `map`, inside bounds. -/
theorem getD_map (l : List (Pt R)) (g : Pt R → Pt R) (i : Nat) (hi : i < l.length)
    (d : Pt R) : (l.map g).getD i d = g (l.getD i d) := by
  rw [List.getD_eq_getElem _ d (by simpa using hi), List.getElem_map,
    List.getD_eq_getElem l d hi]

/-- Below the first control point, `linearInterpolate` is constant. -/
theorem linearInterpolate_left (px py : List R) (x : R) (h : x ≤ px.getD 0 0) :
    linearInterpolate px py x = py.getD 0 0 := by
  simp only [linearInterpolate]
  rw [if_pos h]

/-- Above the last control point, `linearInterpolate` is constant. -/
theorem linearInterpolate_right (px py : List R) (x : R) (h1 : ¬ x ≤ px.getD 0 0)
    (h2 : px.getD (px.length - 1) 0 ≤ x) :
    linearInterpolate px py x = py.getD (px.length - 1) 0 := by
  simp only [linearInterpolate]
  rw [if_neg h1, if_pos h2]

/-- Below the first control point, `cubicSplineInterpolate` (with at least 3
points) extrapolates linearly with the first segment's slope. -/
theorem cubicSplineInterpolate_left (px py : List R) (x : R) (h3 : 3 ≤ px.length)
    (h : x ≤ px.getD 0 0) :
    cubicSplineInterpolate px py x =
      py.getD 0 0 +
        ((py.getD 1 0 - py.getD 0 0) / (px.getD 1 0 - px.getD 0 0)) * (x - px.getD 0 0) := by
  simp only [cubicSplineInterpolate]
  rw [if_neg (by omega), if_pos h]

/-- Above the last control point, `cubicSplineInterpolate` (with at least 3
points) extrapolates linearly with the last segment's slope. -/
theorem cubicSplineInterpolate_right (px py : List R) (x : R) (h3 : 3 ≤ px.length)
    (h1 : ¬ x ≤ px.getD 0 0) (h2 : px.getD (px.length - 1) 0 ≤ x) :
    cubicSplineInterpolate px py x =
      py.getD (px.length - 1) 0 +
        ((py.getD (px.length - 1) 0 - py.getD (px.length - 2) 0) /
          (px.getD (px.length - 1) 0 - px.getD (px.length - 2) 0)) *
        (x - px.getD (px.length - 1) 0) := by
  simp only [cubicSplineInterpolate]
  rw [if_neg (by omega), if_neg h1, if_pos h2]

/-- The i-th output of `manualBaseline` carries the i-th input x and the
dispatched interpolator's value there. -/
theorem manualBaseline_getD (data points : List (Pt R)) (interp : ManualInterp)
    (h2 : 2 ≤ points.length) (i : Nat) (hi : i < data.length) :
    (manualBaseline data points interp).getD i ⟨0, 0⟩ =
      (if interp = ManualInterp.cubic ∧ 3 ≤ (sortedPts points).length then
        (⟨(data.getD i ⟨0, 0⟩).x,
          cubicSplineInterpolate (ctrlX points) (ctrlY points) (data.getD i ⟨0, 0⟩).x⟩ : Pt R)
      else
        ⟨(data.getD i ⟨0, 0⟩).x,
          linearInterpolate (ctrlX points) (ctrlY points) (data.getD i ⟨0, 0⟩).x⟩) := by
  simp only [manualBaseline]
  rw [if_neg (show ¬ points.length < 2 by omega)]
  rw [getD_map data _ i hi]
  simp only [sortedPts, ctrlX, ctrlY]

/-- C6 (amended): outside the control-point span (at least two control points),
cubic mode with at least 3 control points extrapolates linearly with the
boundary segment's slope, while linear mode (and cubic mode with exactly two
control points) extends flat with the boundary control point's y value. -/
theorem c6_manual_extrapolation (data points : List (Pt R)) (interp : ManualInterp)
    (h2 : 2 ≤ points.length) (i : Nat) (hi : i < data.length) :
    ((interp = ManualInterp.cubic ∧ 3 ≤ (sortedPts points).length) →
      (((data.getD i ⟨0, 0⟩).x ≤ (ctrlX points).getD 0 0 →
        ((manualBaseline data points interp).getD i ⟨0, 0⟩).y =
          (ctrlY points).getD 0 0 +
            (((ctrlY points).getD 1 0 - (ctrlY points).getD 0 0) /
              ((ctrlX points).getD 1 0 - (ctrlX points).getD 0 0)) *
            ((data.getD i ⟨0, 0⟩).x - (ctrlX points).getD 0 0)) ∧
      (¬ (data.getD i ⟨0, 0⟩).x ≤ (ctrlX points).getD 0 0 →
        (ctrlX points).getD ((ctrlX points).length - 1) 0 ≤ (data.getD i ⟨0, 0⟩).x →
        ((manualBaseline data points interp).getD i ⟨0, 0⟩).y =
          (ctrlY points).getD ((ctrlX points).length - 1) 0 +
            (((ctrlY points).getD ((ctrlX points).length - 1) 0 -
                (ctrlY points).getD ((ctrlX points).length - 2) 0) /
              ((ctrlX points).getD ((ctrlX points).length - 1) 0 -
                (ctrlX points).getD ((ctrlX points).length - 2) 0)) *
            ((data.getD i ⟨0, 0⟩).x -
              (ctrlX points).getD ((ctrlX points).length - 1) 0)))) ∧
    (¬ (interp = ManualInterp.cubic ∧ 3 ≤ (sortedPts points).length) →
      (((data.getD i ⟨0, 0⟩).x ≤ (ctrlX points).getD 0 0 →
        ((manualBaseline data points interp).getD i ⟨0, 0⟩).y =
          (ctrlY points).getD 0 0) ∧
      (¬ (data.getD i ⟨0, 0⟩).x ≤ (ctrlX points).getD 0 0 →
        (ctrlX points).getD ((ctrlX points).length - 1) 0 ≤ (data.getD i ⟨0, 0⟩).x →
        ((manualBaseline data points interp).getD i ⟨0, 0⟩).y =
          (ctrlY points).getD ((ctrlX points).length - 1) 0))) := by
  have hg := manualBaseline_getD data points interp h2 i hi
  have h3x : 3 ≤ (sortedPts points).length → 3 ≤ (ctrlX points).length := by
    intro h
    simpa [ctrlX] using h
  constructor
  · intro hc
    rw [hg, if_pos hc]
    constructor
    · intro hx
      exact cubicSplineInterpolate_left (ctrlX points) (ctrlY points) _ (h3x hc.2) hx
    · intro hx1 hx2
      exact cubicSplineInterpolate_right (ctrlX points) (ctrlY points) _ (h3x hc.2) hx1 hx2
  · intro hc
    rw [hg, if_neg hc]
    constructor
    · intro hx
      exact linearInterpolate_left (ctrlX points) (ctrlY points) _ hx
    · intro hx1 hx2
      exact linearInterpolate_right (ctrlX points) (ctrlY points) _ hx1 hx2



/-- C6 witness: cubic mode with 3 control points; below the span the baseline
value is the linear extrapolation with the first segment's slope. -/
theorem c6_witness :
    (2 ≤ c6pts.length ∧ 0 < c6data.length ∧
      (ManualInterp.cubic = ManualInterp.cubic ∧ 3 ≤ (sortedPts c6pts).length) ∧
      (c6data.getD 0 ⟨0, 0⟩).x ≤ (ctrlX c6pts).getD 0 0) ∧
    ((manualBaseline c6data c6pts ManualInterp.cubic).getD 0 ⟨0, 0⟩).y =
      (ctrlY c6pts).getD 0 0 +
        (((ctrlY c6pts).getD 1 0 - (ctrlY c6pts).getD 0 0) /
          ((ctrlX c6pts).getD 1 0 - (ctrlX c6pts).getD 0 0)) *
        ((c6data.getD 0 ⟨0, 0⟩).x - (ctrlX c6pts).getD 0 0) := by
  have h2 : 2 ≤ c6pts.length := by norm_num [c6pts]
  have hi : (0 : Nat) < c6data.length := by norm_num [c6data]
  have hc : ManualInterp.cubic = ManualInterp.cubic ∧ 3 ≤ (sortedPts c6pts).length :=
    ⟨rfl, by decide⟩
  have hx : (c6data.getD 0 ⟨0, 0⟩).x ≤ (ctrlX c6pts).getD 0 0 := by decide
  exact ⟨⟨h2, hi, hc, hx⟩,
    ((c6_manual_extrapolation c6data c6pts ManualInterp.cubic h2 0 hi).1 hc).1 hx⟩

/-- C6 counterexample: in linear mode with control points (0,0) and (1,1) and a
sample at x = 2, the baseline value is the constant extension 1, while the
claimed boundary-slope linear extrapolation would give 2; so the claim as
stated (linear extrapolation in both modes) is false. -/
theorem c6_counterexample :
    ((manualBaseline [(⟨2, 5⟩ : Pt ℚ)] [⟨0, 0⟩, ⟨1, 1⟩] ManualInterp.linear).getD 0
        ⟨0, 0⟩).y = 1 ∧
    ((ctrlY [(⟨0, 0⟩ : Pt ℚ), ⟨1, 1⟩]).getD 1 0 +
        (((ctrlY [(⟨0, 0⟩ : Pt ℚ), ⟨1, 1⟩]).getD 1 0 -
            (ctrlY [(⟨0, 0⟩ : Pt ℚ), ⟨1, 1⟩]).getD 0 0) /
          ((ctrlX [(⟨0, 0⟩ : Pt ℚ), ⟨1, 1⟩]).getD 1 0 -
            (ctrlX [(⟨0, 0⟩ : Pt ℚ), ⟨1, 1⟩]).getD 0 0)) *
        ((2 : ℚ) - (ctrlX [(⟨0, 0⟩ : Pt ℚ), ⟨1, 1⟩]).getD 1 0)) = 2 ∧ (1 : ℚ) ≠ 2 := by
  refine ⟨?_, ?_, by norm_num⟩
  · norm_num [manualBaseline, linearInterpolate, List.insertionSort, List.orderedInsert]
  · norm_num [ctrlX, ctrlY, sortedPts, List.insertionSort, List.orderedInsert]



/-- C7: the source's three smoothing passes all read the stale `baseline`
array, so they collapse to a single pass.  On y = [0,9,0,0] with radius 0 the
source returns [0,3,3,0] while the specified three cascaded passes give
[0,4/3,4/3,0]; the claim's description of the smoothing loop does not match
the code (code bug: `smoothed[i]` is written from `baseline`, never re-read). -/
theorem c7_rollingBall_smoothing_bug :
    rollingBallBaseline [(⟨0, 0⟩ : Pt ℚ), ⟨1, 9⟩, ⟨2, 0⟩, ⟨3, 0⟩] 0 =
      [⟨0, 0⟩, ⟨1, 3⟩, ⟨2, 3⟩, ⟨3, 0⟩] ∧
    rollingBallSpec [(⟨0, 0⟩ : Pt ℚ), ⟨1, 9⟩, ⟨2, 0⟩, ⟨3, 0⟩] 0 =
      [⟨0, 0⟩, ⟨1, 4 / 3⟩, ⟨2, 4 / 3⟩, ⟨3, 0⟩] ∧
    rollingBallBaseline [(⟨0, 0⟩ : Pt ℚ), ⟨1, 9⟩, ⟨2, 0⟩, ⟨3, 0⟩] 0 ≠
      rollingBallSpec [(⟨0, 0⟩ : Pt ℚ), ⟨1, 9⟩, ⟨2, 0⟩, ⟨3, 0⟩] 0 := by
  have h1 : rollingBallBaseline [(⟨0, 0⟩ : Pt ℚ), ⟨1, 9⟩, ⟨2, 0⟩, ⟨3, 0⟩] 0 =
      [⟨0, 0⟩, ⟨1, 3⟩, ⟨2, 3⟩, ⟨3, 0⟩] := by
    norm_num [rollingBallBaseline, windowMin, windowMinVals, smoothPassFromEnv,
      List.range_succ, List.filter, List.min?_cons', List.mapIdx_cons, List.mapIdx_nil,
      Int.ceil_zero]
  have h2 : rollingBallSpec [(⟨0, 0⟩ : Pt ℚ), ⟨1, 9⟩, ⟨2, 0⟩, ⟨3, 0⟩] 0 =
      [⟨0, 0⟩, ⟨1, 4 / 3⟩, ⟨2, 4 / 3⟩, ⟨3, 0⟩] := by
    norm_num [rollingBallSpec, smoothPassSpec, windowMin, windowMinVals,
      List.range_succ, List.filter, List.min?_cons', List.mapIdx_cons, List.mapIdx_nil,
      Int.ceil_zero]
  refine ⟨h1, h2, ?_⟩
  rw [h1, h2]
  norm_num

/-- A `min`-fold is bounded by its seed and by every list element. -/
theorem foldl_min_le :
    ∀ (xs : List R) (x : R), xs.foldl min x ≤ x ∧ ∀ a ∈ xs, xs.foldl min x ≤ a := by
  intro xs
  induction xs with
  | nil =>
    intro x
    exact ⟨le_refl x, by simp⟩
  | cons b bs ih =>
    intro x
    simp only [List.foldl_cons]
    refine ⟨le_trans (ih (min x b)).1 (min_le_left x b), ?_⟩
    intro a ha
    rcases List.mem_cons.mp ha with h | h
    · subst h
      exact le_trans (ih (min x a)).1 (min_le_right x a)
    · exact (ih (min x b)).2 a h

/-- `min?.getD` bounds every member of the list from below. -/
theorem min?_getD_le {l : List R} {a : R} (ha : a ∈ l) (d : R) : l.min?.getD d ≤ a := by
  cases l with
  | nil => simp at ha
  | cons x xs =>
    show xs.foldl min x ≤ a
    rcases List.mem_cons.mp ha with h | h
    · subst h
      exact (foldl_min_le xs a).1
    · exact (foldl_min_le xs x).2 a h

/-- On a nonempty list, `min?.getD` is a member. -/
theorem min?_getD_mem_of_ne_nil {l : List R} (h : l ≠ []) (d : R) : l.min?.getD d ∈ l := by
  cases hm : l.min? with
  | none =>
    rw [List.min?_eq_none_iff] at hm
    exact absurd hm h
  | some a =>
    simpa using List.min?_mem (fun a b => min_choice a b) hm

/-- A wider half-window collects a superset of the window values. -/
theorem windowMinVals_subset (y : List R) (h1 h2 : Int) (hle : h1 ≤ h2) (i : Nat) :
    ∀ v ∈ windowMinVals y h1 i, v ∈ windowMinVals y h2 i := by
  intro v hv
  simp only [windowMinVals, List.mem_map] at hv ⊢
  obtain ⟨j, hj, rfl⟩ := hv
  refine ⟨j, ?_, rfl⟩
  simp only [List.mem_filter, List.mem_range, decide_eq_true_eq] at hj ⊢
  omega

/-- A nonnegative half-window always sees the center sample. -/
theorem windowMinVals_ne_nil (y : List R) (h : Int) (h0 : 0 ≤ h) (i : Nat)
    (hi : i < y.length) : windowMinVals y h i ≠ [] := by
  have hmem : y.getD i 0 ∈ windowMinVals y h i := by
    simp only [windowMinVals, List.mem_map]
    refine ⟨i, ?_, rfl⟩
    simp only [List.mem_filter, List.mem_range, decide_eq_true_eq]
    omega
  exact List.ne_nil_of_mem hmem

/-- The sliding-window minimum is antitone in the half-window. -/
theorem windowMin_anti (y : List R) (h1 h2 : Int) (hle : h1 ≤ h2) (h0 : 0 ≤ h1)
    (i : Nat) (hi : i < y.length) : windowMin y h2 i ≤ windowMin y h1 i := by
  have hne : windowMinVals y h1 i ≠ [] := windowMinVals_ne_nil y h1 h0 i hi
  have hmem := min?_getD_mem_of_ne_nil hne (0 : R)
  exact min?_getD_le (windowMinVals_subset y h1 h2 hle i _ hmem) 0

/-- The smoothing pass keeps the length. -/
theorem smoothPassFromEnv_length (env s : List R) :
    (smoothPassFromEnv env s).length = s.length := by
  simp [smoothPassFromEnv]

/-- Pointwise description of one smoothing pass. -/
theorem smoothPassFromEnv_getD (env s : List R) (i : Nat) (hi : i < s.length) :
    (smoothPassFromEnv env s).getD i 0 =
      if 1 ≤ i ∧ i + 1 < s.length then
        (env.getD (i - 1) 0 + env.getD i 0 + env.getD (i + 1) 0) / 3
      else s.getD i 0 := by
  unfold smoothPassFromEnv
  rw [List.getD_eq_getElem _ _ (by simpa using hi), List.getElem_mapIdx,
    List.getD_eq_getElem s 0 hi]

/-- The smoothing pass is pointwise monotone in the envelope and the state. -/
theorem smoothPassFromEnv_mono (env1 env2 s1 s2 : List R) (n : Nat)
    (hs1 : s1.length = n) (hs2 : s2.length = n)
    (henv : ∀ j, j < n → env1.getD j 0 ≤ env2.getD j 0)
    (hs : ∀ j, j < n → s1.getD j 0 ≤ s2.getD j 0) :
    ∀ j, j < n →
      (smoothPassFromEnv env1 s1).getD j 0 ≤ (smoothPassFromEnv env2 s2).getD j 0 := by
  intro j hj
  rw [smoothPassFromEnv_getD env1 s1 j (by omega), smoothPassFromEnv_getD env2 s2 j (by omega)]
  rw [hs1, hs2]
  by_cases hc : 1 ≤ j ∧ j + 1 < n
  · rw [if_pos hc, if_pos hc]
    exact (div_le_div_iff_of_pos_right (by norm_num : (0 : R) < 3)).mpr
      (add_le_add (add_le_add (henv (j - 1) (by omega)) (henv j hj)) (henv (j + 1) (by omega)))
  · rw [if_neg hc, if_neg hc]
    exact hs j hj


theorem envOf_length [FloorRing R] (data : List (Pt R)) (r : R) :
    (envOf data r).length = data.length := by
  simp [envOf]

/-- `getD` through a `map` over an index range. -/
theorem getD_range_map (f : Nat → R) (n j : Nat) (hj : j < n) :
    ((List.range n).map f).getD j 0 = f j := by
  rw [List.getD_eq_getElem _ _ (by simpa using hj), List.getElem_map, List.getElem_range]

theorem envOf_getD [FloorRing R] (data : List (Pt R)) (r : R) (j : Nat)
    (hj : j < data.length) :
    (envOf data r).getD j 0 = windowMin (data.map (fun d => d.y)) ⌈r⌉ j := by
  unfold envOf
  exact getD_range_map _ _ _ hj

/-- The three stale-read passes written out. -/
theorem foldl_pass_three (env init : List R) :
    (List.range 3).foldl (fun s _ => smoothPassFromEnv env s) init =
      smoothPassFromEnv env (smoothPassFromEnv env (smoothPassFromEnv env init)) := rfl

/-- The y value returned by `rollingBallBaseline` at an in-range index, on at
least 3 samples. -/
theorem rollingBallBaseline_getD [FloorRing R] (data : List (Pt R)) (r : R)
    (hn : ¬ data.length < 3) (i : Nat) (hi : i < data.length) :
    ((rollingBallBaseline data r).getD i ⟨0, 0⟩).y =
      (smoothPassFromEnv (envOf data r) (smoothPassFromEnv (envOf data r)
        (smoothPassFromEnv (envOf data r) (envOf data r)))).getD i 0 := by
  simp only [rollingBallBaseline]
  rw [if_neg hn]
  rw [List.getD_eq_getElem _ _ (by simpa using hi), List.getElem_mapIdx]
  show (((List.range 3).foldl (fun s _ => smoothPassFromEnv (envOf data r) s)
    (envOf data r)).getD i 0 : R) = _
  rw [foldl_pass_three]

/-- C8 (amended): with `0 ≤ r1 ≤ r2`, the rolling-ball baseline with the larger
radius is pointwise at most the one with the smaller radius (same length); and
the *window-minimum envelope* value never exceeds any of the window values used
to compute it.  (The returned, smoothed baseline can exceed window values —
see the counterexample.) -/
theorem c8_rollingBall_radius_antitone [FloorRing R] (data : List (Pt R)) (r1 r2 : R)
    (h0 : 0 ≤ r1) (hr : r1 ≤ r2) :
    ((rollingBallBaseline data r2).length = (rollingBallBaseline data r1).length ∧
      ∀ i, i < data.length →
        ((rollingBallBaseline data r2).getD i ⟨0, 0⟩).y ≤
          ((rollingBallBaseline data r1).getD i ⟨0, 0⟩).y) ∧
    (∀ (h : Int) (i : Nat), ∀ v ∈ windowMinVals (data.map (fun d => d.y)) h i,
      windowMin (data.map (fun d => d.y)) h i ≤ v) := by
  have part2 : ∀ (h : Int) (i : Nat), ∀ v ∈ windowMinVals (data.map (fun d => d.y)) h i,
      windowMin (data.map (fun d => d.y)) h i ≤ v := by
    intro h i v hv
    exact min?_getD_le hv 0
  by_cases hn : data.length < 3
  · have e : ∀ r : R, rollingBallBaseline data r = data.map (fun d => (⟨d.x, 0⟩ : Pt R)) := by
      intro r
      simp only [rollingBallBaseline]
      rw [if_pos hn]
    refine ⟨⟨by rw [e r1, e r2], ?_⟩, part2⟩
    intro i hi
    rw [e r1, e r2]
  · have hE2 : (envOf data r2).length = data.length := envOf_length data r2
    have hE1 : (envOf data r1).length = data.length := envOf_length data r1
    have hm0 : ∀ j, j < data.length →
        (envOf data r2).getD j 0 ≤ (envOf data r1).getD j 0 := by
      intro j hj
      rw [envOf_getD data r2 j hj, envOf_getD data r1 j hj]
      exact windowMin_anti (data.map (fun d => d.y)) ⌈r1⌉ ⌈r2⌉ (Int.ceil_mono hr)
        (Int.ceil_nonneg h0) j (by simpa using hj)
    have p1 := smoothPassFromEnv_mono (envOf data r2) (envOf data r1)
      (envOf data r2) (envOf data r1) data.length hE2 hE1 hm0 hm0
    have l12 : (smoothPassFromEnv (envOf data r2) (envOf data r2)).length = data.length := by
      rw [smoothPassFromEnv_length, hE2]
    have l11 : (smoothPassFromEnv (envOf data r1) (envOf data r1)).length = data.length := by
      rw [smoothPassFromEnv_length, hE1]
    have p2 := smoothPassFromEnv_mono (envOf data r2) (envOf data r1)
      (smoothPassFromEnv (envOf data r2) (envOf data r2))
      (smoothPassFromEnv (envOf data r1) (envOf data r1)) data.length l12 l11 hm0 p1
    have l22 : (smoothPassFromEnv (envOf data r2)
        (smoothPassFromEnv (envOf data r2) (envOf data r2))).length = data.length := by
      rw [smoothPassFromEnv_length, smoothPassFromEnv_length, hE2]
    have l21 : (smoothPassFromEnv (envOf data r1)
        (smoothPassFromEnv (envOf data r1) (envOf data r1))).length = data.length := by
      rw [smoothPassFromEnv_length, smoothPassFromEnv_length, hE1]
    have p3 := smoothPassFromEnv_mono (envOf data r2) (envOf data r1)
      (smoothPassFromEnv (envOf data r2) (smoothPassFromEnv (envOf data r2) (envOf data r2)))
      (smoothPassFromEnv (envOf data r1) (smoothPassFromEnv (envOf data r1) (envOf data r1)))
      data.length l22 l21 hm0 p2
    have hlen : ∀ r : R, (rollingBallBaseline data r).length = data.length := by
      intro r
      have h := congrArg List.length (rollingBallBaseline_map_x data r)
      simpa using h
    refine ⟨⟨by rw [hlen r1, hlen r2], ?_⟩, part2⟩
    intro i hi
    rw [rollingBallBaseline_getD data r2 hn i hi, rollingBallBaseline_getD data r1 hn i hi]
    exact p3 i hi

/-- C8 witness: on y = [5,0,5,5,5] with radii 0 ≤ 1 the baseline at index 1 is
antitone, and the window-minimum envelope at index 1 is bounded by the window
value 0. -/
theorem c8_witness :
    ((0 : ℚ) ≤ 0 ∧ (0 : ℚ) ≤ 1 ∧
      (1 : Nat) < ([(⟨0, 5⟩ : Pt ℚ), ⟨1, 0⟩, ⟨2, 5⟩, ⟨3, 5⟩, ⟨4, 5⟩]).length) ∧
    ((rollingBallBaseline [(⟨0, 5⟩ : Pt ℚ), ⟨1, 0⟩, ⟨2, 5⟩, ⟨3, 5⟩, ⟨4, 5⟩] 1).getD 1
        ⟨0, 0⟩).y ≤
      ((rollingBallBaseline [(⟨0, 5⟩ : Pt ℚ), ⟨1, 0⟩, ⟨2, 5⟩, ⟨3, 5⟩, ⟨4, 5⟩] 0).getD 1
        ⟨0, 0⟩).y ∧
    ((0 : ℚ) ∈ windowMinVals
        ([(⟨0, 5⟩ : Pt ℚ), ⟨1, 0⟩, ⟨2, 5⟩, ⟨3, 5⟩, ⟨4, 5⟩].map (fun d => d.y)) 0 1 ∧
      windowMin ([(⟨0, 5⟩ : Pt ℚ), ⟨1, 0⟩, ⟨2, 5⟩, ⟨3, 5⟩, ⟨4, 5⟩].map (fun d => d.y)) 0 1 ≤
        0) := by
  have h := c8_rollingBall_radius_antitone
    [(⟨0, 5⟩ : Pt ℚ), ⟨1, 0⟩, ⟨2, 5⟩, ⟨3, 5⟩, ⟨4, 5⟩] 0 1 (le_refl 0) (by norm_num)
  have hm : (0 : ℚ) ∈ windowMinVals
      ([(⟨0, 5⟩ : Pt ℚ), ⟨1, 0⟩, ⟨2, 5⟩, ⟨3, 5⟩, ⟨4, 5⟩].map (fun d => d.y)) 0 1 := by
    norm_num [windowMinVals, List.range_succ, List.filter]
  exact ⟨⟨le_refl 0, by norm_num, by norm_num⟩, h.1.2 1 (by norm_num), hm, h.2 0 1 0 hm⟩

/-- C8 counterexample: the *returned* baseline can exceed window values.  On
y = [5,0,5,5,5] with radius 1 the window at index 2 contains the value 0, but
the returned baseline value there is 5/3 > 0, so the claim's second part as
stated (the baseline never exceeds the window values) is false. -/
theorem c8_counterexample :
    ((0 : ℚ) ∈ windowMinVals
        ([(⟨0, 5⟩ : Pt ℚ), ⟨1, 0⟩, ⟨2, 5⟩, ⟨3, 5⟩, ⟨4, 5⟩].map (fun d => d.y)) ⌈(1 : ℚ)⌉ 2) ∧
    ((rollingBallBaseline [(⟨0, 5⟩ : Pt ℚ), ⟨1, 0⟩, ⟨2, 5⟩, ⟨3, 5⟩, ⟨4, 5⟩] 1).getD 2
        ⟨0, 0⟩).y = 5 / 3 ∧
    ¬ ((rollingBallBaseline [(⟨0, 5⟩ : Pt ℚ), ⟨1, 0⟩, ⟨2, 5⟩, ⟨3, 5⟩, ⟨4, 5⟩] 1).getD 2
        ⟨0, 0⟩).y ≤ (0 : ℚ) := by
  have h1 : ((rollingBallBaseline [(⟨0, 5⟩ : Pt ℚ), ⟨1, 0⟩, ⟨2, 5⟩, ⟨3, 5⟩, ⟨4, 5⟩] 1).getD 2
      ⟨0, 0⟩).y = 5 / 3 := by
    norm_num [rollingBallBaseline, windowMin, windowMinVals, smoothPassFromEnv,
      List.range_succ, List.filter, List.min?_cons', List.mapIdx_cons, List.mapIdx_nil,
      Int.ceil_one, List.getD_cons_zero, List.getD_cons_succ]
  refine ⟨?_, h1, by rw [h1]; norm_num⟩
  norm_num [windowMinVals, List.range_succ, List.filter, Int.ceil_one]

end Peakipy
